import Mathlib

/-!
Verification of the execution-and-reconciliation layer of the code-review
agent repository: stream chunk extraction (`app/utils/stream_extractor.py`),
quota-error classification and model fallback routing
(`app/utils/model_fallback.py`, `app/utils/model_router.py`), and the
webhook client's bounded stream consumption (`webhook_service/agent_client.py`).

Python values are modelled by the inductive type `PyVal`; Python `dict`s are
association lists with unique keys (first-match lookup, in-place update);
raising an exception is modelled with `Except PyErr` / `Option`.
-/

/-- The whitespace set of Python `str.strip()` (ASCII part). -/
def isPySpace (c : Char) : Bool :=
  c = ' ' || c = '\t' || c = '\n' || c = '\r' || c = '\x0b' || c = '\x0c'

/-- Python `str.strip()`: drop leading and trailing whitespace. -/
def pyStrip (s : String) : String :=
  ⟨((s.data.dropWhile isPySpace).reverse.dropWhile isPySpace).reverse⟩

/-- Whether `needle` occurs as a contiguous sublist of `hay`
(the model of Python's `needle in hay` on strings). -/
def listContains (needle : List Char) : List Char → Bool
  | [] => needle.isEmpty
  | c :: rest => needle.isPrefixOf (c :: rest) || listContains needle rest

/-- Python `needle in hay` for strings. -/
def pyIn (needle hay : String) : Bool :=
  listContains needle.data hay.data

/-- Lower-case a string character-wise (ASCII, as used here). -/
def lowerStr (s : String) : String :=
  ⟨s.data.map Char.toLower⟩

/-- Upper-case a string character-wise (ASCII, as used here). -/
def upperStr (s : String) : String :=
  ⟨s.data.map Char.toUpper⟩

/-- `s.startswith(pre)`. -/
def strStartsWith (s pre : String) : Bool :=
  pre.data.isPrefixOf s.data

/-- Python `str.capitalize()`: first character upper-cased, the rest lower-cased. -/
def pyCapitalize (s : String) : String :=
  match s.data with
  | [] => ""
  | c :: rest => ⟨c.toUpper :: rest.map Char.toLower⟩

/-- Worker for `pySplitWs`: split on whitespace, accumulating the current
word in reverse. -/
def splitWsAux : List Char → List Char → List String
  | [], cur => if cur.isEmpty then [] else [⟨cur.reverse⟩]
  | c :: cs, cur =>
    if isPySpace c then
      if cur.isEmpty then splitWsAux cs [] else (⟨cur.reverse⟩ : String) :: splitWsAux cs []
    else splitWsAux cs (c :: cur)

/-- Python `str.split()` with no argument: split on whitespace runs,
dropping empty pieces. -/
def pySplitWs (s : String) : List String :=
  splitWsAux s.data []

/-- Worker for `pySplitOn` (fuelled so that it reduces structurally). -/
def splitOnAux (sep : List Char) : Nat → List Char → List Char → List (List Char)
  | 0, s, cur => [(cur.reverse ++ s)]
  | fuel + 1, s, cur =>
    match s with
    | [] => [cur.reverse]
    | c :: cs =>
      if sep ≠ [] ∧ sep.isPrefixOf (c :: cs) then
        cur.reverse :: splitOnAux sep fuel ((c :: cs).drop sep.length) []
      else splitOnAux sep fuel cs (c :: cur)

/-- Python `s.split(sep)` for a non-empty separator. -/
def pySplitOn (sep s : String) : List String :=
  (splitOnAux sep.data (s.length + 1) s.data []).map (fun cs => (⟨cs⟩ : String))

/-- Python `s.replace(pat, rep)` for a non-empty pattern. -/
def pyReplace (s pat rep : String) : String :=
  String.intercalate rep (pySplitOn pat s)

/-- An exception value: the dynamic type's name and `str(e)` (its message). -/
structure PyErr where
  typeName : String
  msg : String
deriving DecidableEq

/-- `10 ^ n` over `Int`, by structural recursion. -/
def pow10 : Nat → Int
  | 0 => 1
  | n + 1 => 10 * pow10 n

/-- An exact decimal number `m / 10 ^ e`, collapsing Python's ints and the
floats this layer produces (all of which are decimal); not normalised. -/
structure Dec where
  m : Int
  e : Nat
deriving DecidableEq

/-- Decimal addition (common power-of-ten denominator). -/
def Dec.add (a b : Dec) : Dec :=
  ⟨a.m * pow10 b.e + b.m * pow10 a.e, a.e + b.e⟩

/-- Decimal multiplication. -/
def Dec.mul (a b : Dec) : Dec :=
  ⟨a.m * b.m, a.e + b.e⟩

/-- Exact division by `10 ^ k`. -/
def Dec.divPow10 (a : Dec) (k : Nat) : Dec :=
  ⟨a.m, a.e + k⟩

/-- A natural number as a decimal. -/
def Dec.ofNat (n : Nat) : Dec :=
  ⟨n, 0⟩

/-- A Python runtime value as it appears in the streaming layer: `None`,
booleans, numbers (exact decimals), strings, lists, dicts (association
lists, unique keys), and attribute-bearing objects. -/
inductive PyVal where
  | vnone : PyVal
  | vbool : Bool → PyVal
  | vnum : Dec → PyVal
  | vstr : String → PyVal
  | vlist : List PyVal → PyVal
  | vdict : List (String × PyVal) → PyVal
  | vobj : List (String × PyVal) → PyVal

/-- Python truthiness (`bool(v)`); attribute-bearing objects are truthy. -/
def PyVal.truthy : PyVal → Bool
  | .vnone => false
  | .vbool b => b
  | .vnum q => q.m ≠ 0
  | .vstr s => s ≠ ""
  | .vlist xs => ¬ xs.isEmpty
  | .vdict xs => ¬ xs.isEmpty
  | .vobj _ => true

/-- Whether a value is Python `None`. -/
def PyVal.isNone : PyVal → Bool
  | .vnone => true
  | _ => false

/-- `d.get(k)` on an association-list dict: first matching key. -/
def dictGet (k : String) : List (String × PyVal) → Option PyVal
  | [] => none
  | (k', v) :: rest => if k' = k then some v else dictGet k rest

/-- `k in d` on a dict. -/
def containsKey (k : String) (d : List (String × PyVal)) : Bool :=
  (dictGet k d).isSome

/-- `d[k] = v`: update the first occurrence in place, else append. -/
def dictSet (k : String) (v : PyVal) : List (String × PyVal) → List (String × PyVal)
  | [] => [(k, v)]
  | (k', v') :: rest => if k' = k then (k, v) :: rest else (k', v') :: dictSet k v rest

/-- `d1.update(d2)`: fold the pairs of `d2` into `d1` in order. -/
def dictUpdate (d1 d2 : List (String × PyVal)) : List (String × PyVal) :=
  d2.foldl (fun acc kv => dictSet kv.1 kv.2 acc) d1

/-- `_get_attr(obj, name)` from `stream_extractor.py`: `getattr` with the
exception swallowed, so a missing attribute (and any non-object value,
none of which carries the attribute names used by this layer) yields `None`. -/
def getAttr (v : PyVal) (name : String) : PyVal :=
  match v with
  | .vobj attrs => (dictGet name attrs).getD .vnone
  | _ => .vnone

/-- `hasattr(obj, name)` for the attribute names used by this layer. -/
def hasAttr (v : PyVal) (name : String) : Bool :=
  match v with
  | .vobj attrs => containsKey name attrs
  | _ => false

/-- `for x in v`: lists iterate their elements, strings their characters,
dicts their keys; other values are not iterable (`none` models the
`TypeError`). -/
def pyIter : PyVal → Option (List PyVal)
  | .vlist xs => some xs
  | .vstr s => some (s.data.map (fun c => .vstr ⟨[c]⟩))
  | .vdict d => some (d.map (fun kv => .vstr kv.1))
  | _ => none

/-! ### A model of Python `json.loads`

Strict JSON: objects, arrays, strings with the standard escapes (`\uXXXX`
without surrogate pairing), numbers with optional fraction and exponent,
`true`/`false`/`null`.  Duplicate object keys keep the first position and the
last value, as a Python dict built by repeated assignment does.  The
non-standard `NaN`/`Infinity` extensions of the Python decoder are outside
the scope of the claims and are not modelled. -/

/-- JSON insignificant whitespace. -/
def jsonWs (c : Char) : Bool :=
  c = ' ' || c = '\t' || c = '\n' || c = '\r'

/-- Drop insignificant whitespace. -/
def skipWs (cs : List Char) : List Char :=
  cs.dropWhile jsonWs

/-- Value of a hexadecimal digit. -/
def hexVal (c : Char) : Option Nat :=
  if '0' ≤ c ∧ c ≤ '9' then some (c.toNat - '0'.toNat)
  else if 'a' ≤ c ∧ c ≤ 'f' then some (c.toNat - 'a'.toNat + 10)
  else if 'A' ≤ c ∧ c ≤ 'F' then some (c.toNat - 'A'.toNat + 10)
  else none

/-- Decimal digits to a natural number. -/
def digitsToNat (ds : List Char) : Nat :=
  ds.foldl (fun n c => n * 10 + (c.toNat - '0'.toNat)) 0

/-- Parse a JSON string body (the opening quote already consumed), returning
the string and the remaining input. -/
def parseStringBody : Nat → List Char → Option (String × List Char)
  | 0, _ => none
  | _ + 1, [] => none
  | fuel + 1, c :: rest =>
    if c = '"' then some ("", rest)
    else if c = '\\' then
      match rest with
      | [] => none
      | e :: rest2 =>
        let cont := fun (ch : Char) (rs : List Char) =>
          (parseStringBody fuel rs).map (fun p => (⟨ch :: p.1.data⟩, p.2))
        if e = '"' then cont '"' rest2
        else if e = '\\' then cont '\\' rest2
        else if e = '/' then cont '/' rest2
        else if e = 'b' then cont '\x08' rest2
        else if e = 'f' then cont '\x0c' rest2
        else if e = 'n' then cont '\n' rest2
        else if e = 'r' then cont '\r' rest2
        else if e = 't' then cont '\t' rest2
        else if e = 'u' then
          match rest2 with
          | h1 :: h2 :: h3 :: h4 :: rest3 =>
            match hexVal h1, hexVal h2, hexVal h3, hexVal h4 with
            | some a, some b, some c2, some d =>
              cont (Char.ofNat (a * 4096 + b * 256 + c2 * 16 + d)) rest3
            | _, _, _, _ => none
          | _ => none
        else none
    else if c.toNat < 32 then none
    else (parseStringBody fuel rest).map (fun p => (⟨c :: p.1.data⟩, p.2))

/-- Parse a JSON number, returning its exact decimal value. -/
def parseNumber (cs : List Char) : Option (Dec × List Char) :=
  let sign : Int × List Char := match cs with | '-' :: t => (-1, t) | _ => (1, cs)
  let cs1 := sign.2
  let intDigits := cs1.takeWhile Char.isDigit
  let cs2 := cs1.drop intDigits.length
  if intDigits.isEmpty then none else
  let mantFrac : Option (Nat × Nat × List Char) :=
    match cs2 with
    | '.' :: t =>
      let fd := t.takeWhile Char.isDigit
      if fd.isEmpty then none
      else some (digitsToNat fd, fd.length, t.drop fd.length)
    | _ => some (0, 0, cs2)
  match mantFrac with
  | none => none
  | some (frac, fracLen, cs3) =>
    let n0 : Int := sign.1 * ((digitsToNat intDigits : Int) * pow10 fracLen + (frac : Int))
    let expPart : Option (Int × List Char) :=
      match cs3 with
      | e :: t =>
        if e = 'e' ∨ e = 'E' then
          let esign : Int × List Char :=
            match t with | '+' :: u => (1, u) | '-' :: u => (-1, u) | _ => (1, t)
          let ed := esign.2.takeWhile Char.isDigit
          if ed.isEmpty then none
          else some (esign.1 * (digitsToNat ed : Int), esign.2.drop ed.length)
        else some (0, cs3)
      | [] => some (0, cs3)
    match expPart with
    | none => none
    | some (ex, cs4) =>
      if 0 ≤ ex then some (⟨n0 * pow10 ex.toNat, fracLen⟩, cs4)
      else some (⟨n0, fracLen + (-ex).toNat⟩, cs4)

mutual

/-- Parse one JSON value. -/
def parseValue : Nat → List Char → Option (PyVal × List Char)
  | 0, _ => none
  | fuel + 1, cs =>
    match skipWs cs with
    | [] => none
    | c :: rest =>
      if c = '{' then
        match skipWs rest with
        | '}' :: cs2 => some (.vdict [], cs2)
        | _ => parseObjectRest fuel rest []
      else if c = '[' then
        match skipWs rest with
        | ']' :: cs2 => some (.vlist [], cs2)
        | _ => parseArrayRest fuel rest []
      else if c = '"' then
        (parseStringBody (rest.length + 1) rest).map (fun p => (.vstr p.1, p.2))
      else if c = 't' then
        match rest with | 'r' :: 'u' :: 'e' :: cs2 => some (.vbool true, cs2) | _ => none
      else if c = 'f' then
        match rest with | 'a' :: 'l' :: 's' :: 'e' :: cs2 => some (.vbool false, cs2) | _ => none
      else if c = 'n' then
        match rest with | 'u' :: 'l' :: 'l' :: cs2 => some (.vnone, cs2) | _ => none
      else
        (parseNumber (c :: rest)).map (fun p => (.vnum p.1, p.2))

/-- Parse the members of a JSON object (opening brace consumed, object known
to be non-empty). -/
def parseObjectRest : Nat → List Char → List (String × PyVal) → Option (PyVal × List Char)
  | 0, _, _ => none
  | fuel + 1, cs, acc =>
    match skipWs cs with
    | '"' :: rest =>
      match parseStringBody (rest.length + 1) rest with
      | none => none
      | some (key, cs2) =>
        match skipWs cs2 with
        | ':' :: cs3 =>
          match parseValue fuel cs3 with
          | none => none
          | some (v, cs4) =>
            let acc' := dictSet key v acc
            match skipWs cs4 with
            | ',' :: cs5 => parseObjectRest fuel cs5 acc'
            | '}' :: cs5 => some (.vdict acc', cs5)
            | _ => none
        | _ => none
    | _ => none

/-- Parse the elements of a JSON array (opening bracket consumed, array known
to be non-empty). -/
def parseArrayRest : Nat → List Char → List PyVal → Option (PyVal × List Char)
  | 0, _, _ => none
  | fuel + 1, cs, acc =>
    match parseValue fuel cs with
    | none => none
    | some (v, cs2) =>
      match skipWs cs2 with
      | ',' :: cs3 => parseArrayRest fuel cs3 (acc ++ [v])
      | ']' :: cs3 => some (.vlist (acc ++ [v]), cs3)
      | _ => none

end

/-- Model of Python `json.loads`: parse one value, requiring only whitespace
after it (`Extra data` otherwise raises, modelled by `none`). -/
def parseJson (s : String) : Option PyVal :=
  match parseValue (4 * (s.length + 1)) s.data with
  | some (v, rest) => if (skipWs rest).isEmpty then some v else none
  | none => none

/-! ### `app/utils/stream_extractor.py` -/

/-- Last index at which `pat` occurs in `s` (Python `s.rfind(pat)`, with
`none` for `-1`). -/
def lastOccurrence (pat s : List Char) : Option Nat :=
  (List.range (s.length + 1)).foldl
    (fun acc i => if pat.isPrefixOf (s.drop i) then some i else acc) none

/-- `_strip_json_fence`: if the stripped text is a ` ```json `-fenced block,
return its interior, else the stripped text. -/
def _strip_json_fence (text : String) : String :=
  let s := pyStrip text
  if ¬ strStartsWith s "```" then s
  else
    match s.data.findIdx? (fun c => c = '\n') with
    | none => s
    | some firstNewline =>
      let fenceHeader := lowerStr (pyStrip ⟨s.data.take firstNewline⟩)
      if fenceHeader ≠ "```json" ∧ fenceHeader ≠ "```" then s
      else
        match lastOccurrence "```".data s.data with
        | none => s
        | some closing =>
          if closing ≤ firstNewline then s
          else pyStrip ⟨(s.data.take closing).drop (firstNewline + 1)⟩

/-- The signal-field filter of `_extract_json_from_text`:
`"summary" in parsed or "overall_status" in parsed or "metrics" in parsed`. -/
def requiredSignal (d : List (String × PyVal)) : Bool :=
  containsKey "summary" d || containsKey "overall_status" d || containsKey "metrics" d

/-- First stage of `_extract_json_from_text`: strip a fence and, if that
changed the text, try parsing the interior; `none` means fall through. -/
def fenceStage (text : String) : Option (List (String × PyVal)) :=
  let stripped := _strip_json_fence text
  if stripped ≠ text then
    match parseJson stripped with
    | some (.vdict d) => if requiredSignal d then some d else none
    | _ => none
  else none

/-- The brace-depth scan of `_extract_json_from_text` (lines 64-91): walk the
characters keeping an `Int` depth and the start of the current depth-0 span;
on each balanced `{...}` span, parse it and keep it (with its end position)
when it is a mapping with a signal field. -/
def scanGo (full : List Char) :
    List Char → Nat → Int → Option Nat →
    List (Nat × List (String × PyVal)) → List (Nat × List (String × PyVal))
  | [], _, _, _, acc => acc
  | c :: cs, i, depth, start, acc =>
    if c = '{' then
      scanGo full cs (i + 1) (depth + 1) (if depth = 0 then some i else start) acc
    else if c = '}' then
      match start with
      | some s =>
        if depth - 1 = 0 then
          scanGo full cs (i + 1) (depth - 1) none
            (match parseJson ⟨(full.take (i + 1)).drop s⟩ with
             | some (.vdict d) => if requiredSignal d then acc ++ [(i, d)] else acc
             | _ => acc)
        else scanGo full cs (i + 1) (depth - 1) start acc
      | none => scanGo full cs (i + 1) (depth - 1) start acc
    else scanGo full cs (i + 1) depth start acc

/-- All brace-balanced candidates of a text, in scan order. -/
def scanCandidates (text : String) : List (Nat × List (String × PyVal)) :=
  scanGo text.data text.data 0 0 none []

/-- The comparison of `json_candidates.sort(key=lambda x: (x[0], -len(x[1])))`:
ascending position, then descending field count. -/
def candLe (a b : Nat × List (String × PyVal)) : Bool :=
  a.1 < b.1 || (a.1 = b.1 && b.2.length ≤ a.2.length)

/-- Stable insertion of one element into a `candLe`-sorted list (a later
element goes after key-equal earlier ones, as Python's stable sort does). -/
def candInsert (x : Nat × List (String × PyVal)) :
    List (Nat × List (String × PyVal)) → List (Nat × List (String × PyVal))
  | [] => [x]
  | y :: ys => if candLe x y && ¬ candLe y x then x :: y :: ys else y :: candInsert x ys

/-- Stable sort by `candLe` (insertion sort, processing left to right). -/
def sortCandidates (l : List (Nat × List (String × PyVal))) :
    List (Nat × List (String × PyVal)) :=
  l.foldl (fun acc x => candInsert x acc) []

/-- `_extract_json_from_text`: fence stage, then the brace scan picking
`sorted(candidates)[-1]`, then parsing the whole stripped text. -/
def _extract_json_from_text (text : String) : Option (List (String × PyVal)) :=
  if text = "" then none
  else
    match fenceStage text with
    | some d => some d
    | none =>
      let cands := scanCandidates text
      if ¬ cands.isEmpty then
        ((sortCandidates cands).getLast?).map (fun pr => pr.2)
      else
        match parseJson (pyStrip text) with
        | some (.vdict d) => if requiredSignal d then some d else none
        | _ => none

/-- The `{"text": ...}` reader of the dict-shaped branches: keep `part["text"]`
when it is a non-empty string. -/
def partText (part : PyVal) : Option String :=
  match part with
  | .vdict pd =>
    match dictGet "text" pd with
    | some (.vstr t) => if t ≠ "" then some t else none
    | _ => none
  | _ => none

/-- The `parts[].text` reader shared by the dict-shaped branches: the
non-empty `text` strings of a content dict's `parts` list. -/
def contentDictParts (cc : List (String × PyVal)) : List String :=
  match dictGet "parts" cc with
  | some (.vlist parts) => parts.filterMap partText
  | _ => []

/-- One candidate of the `candidates[].content.parts[].text` shape. -/
def candText (cand : PyVal) : List String :=
  match cand with
  | .vdict cd =>
    match dictGet "content" cd with
    | some (.vdict cc) => contentDictParts cc
    | _ => []
  | _ => []

/-- One block of the `content`-as-list-of-blocks shape. -/
def blockText (c : PyVal) : List String :=
  match c with
  | .vdict cd => contentDictParts cd
  | _ => []

/-- The dict-shaped branch of `extract_text_parts` (lines 134-192): the
`candidates[].content.parts[].text` shape, then `content.parts[].text`, then
`content` as a list of blocks, then top-level `text`, then `content` as a
bare string; each stage returns only if it produced something. -/
def dictTextParts (d : List (String × PyVal)) : List String :=
  let candidatesOut : List String :=
    match dictGet "candidates" d with
    | some (.vlist cands) => cands.flatMap candText
    | _ => []
  if ¬ candidatesOut.isEmpty then candidatesOut else
  let content := dictGet "content" d
  let contentPartsOut : List String :=
    match content with
    | some (.vdict cd) => contentDictParts cd
    | _ => []
  if ¬ contentPartsOut.isEmpty then contentPartsOut else
  let contentListOut : List String :=
    match content with
    | some (.vlist cs) => cs.flatMap blockText
    | _ => []
  if ¬ contentListOut.isEmpty then contentListOut else
  match dictGet "text" d with
  | some (.vstr t) =>
    if t ≠ "" then [t]
    else match content with
         | some (.vstr c) => if c ≠ "" then [c] else []
         | _ => []
  | _ =>
    match content with
    | some (.vstr c) => if c ≠ "" then [c] else []
    | _ => []

/-- The per-part reader of the attribute branch: `_get_attr(part, "text")`
kept when a non-empty string. -/
def attrPartText (part : PyVal) : Option String :=
  match getAttr part "text" with
  | .vstr t => if t ≠ "" then some t else none
  | _ => none

/-- The attribute-object branch of `extract_text_parts` (lines 194-211):
when `content` is present and its truthy `parts` yield a non-empty fragment
list, return it, else fall through to the top-level `text` attribute;
`none` models the `TypeError` of iterating a truthy non-iterable `parts`. -/
def attrTextParts (chunk : PyVal) : Option (List String) :=
  let textFallback : Option (List String) :=
    match getAttr chunk "text" with
    | .vstr t => if t ≠ "" then some [t] else some []
    | _ => some []
  if ¬ (getAttr chunk "content").isNone then
    if (getAttr (getAttr chunk "content") "parts").truthy then
      match pyIter (getAttr (getAttr chunk "content") "parts") with
      | none => none
      | some items =>
        let out := items.filterMap attrPartText
        if ¬ out.isEmpty then some out else textFallback
    else textFallback
  else textFallback

/-- `extract_text_parts(chunk)`: text fragments of one streamed chunk;
`none` models an uncaught `TypeError` in the attribute branch. -/
def extract_text_parts (chunk : PyVal) : Option (List String) :=
  match chunk with
  | .vnone => some []
  | .vstr s => some (if s ≠ "" then [s] else [])
  | .vdict d => some (dictTextParts d)
  | _ => attrTextParts chunk

/-- `extract_state_delta(chunk)`: best-effort `actions.state_delta` of one
chunk; total, every access is guarded. -/
def extract_state_delta (chunk : PyVal) : List (String × PyVal) :=
  match chunk with
  | .vnone => []
  | .vdict d =>
    match dictGet "actions" d with
    | some (.vdict a) =>
      match dictGet "state_delta" a with
      | some (.vdict sd) => sd
      | _ => []
    | _ => []
  | _ =>
    let actions := getAttr chunk "actions"
    if actions.isNone then []
    else
      match getAttr actions "state_delta" with
      | .vdict sd => sd
      | _ => []

/-- The loop of `extract_text_and_state`: accumulate text parts and merge
state deltas in arrival order. -/
def extractLoop : List PyVal → List String → List (String × PyVal) →
    Option (List String × List (String × PyVal))
  | [], parts, st => some (parts, st)
  | c :: cs, parts, st =>
    match extract_text_parts c with
    | none => none
    | some ps => extractLoop cs (parts ++ ps) (dictUpdate st (extract_state_delta c))

/-- `extract_text_and_state(chunks)`: combined text (non-empty fragments
joined by newline, stripped) and merged state. -/
def extract_text_and_state (chunks : List PyVal) :
    Option (String × List (String × PyVal)) :=
  (extractLoop chunks [] []).map (fun p =>
    (pyStrip (String.intercalate "\n" (p.1.filter (fun t => t ≠ ""))), p.2))

/-- Python `len(v)` for sized values (`none` models the `TypeError`). -/
def pyLen : PyVal → Option Nat
  | .vstr s => some s.length
  | .vlist l => some l.length
  | .vdict d => some d.length
  | _ => none

/-- Python `v[0]` (`none` models the `TypeError`/`KeyError`/`IndexError`). -/
def pySubscript0 : PyVal → Option PyVal
  | .vlist l => l.head?
  | .vstr s => (s.data.head?).map (fun c => .vstr ⟨[c]⟩)
  | _ => none

/-- Python `str.isdigit()` (ASCII digits). -/
def pyIsDigit (s : String) : Bool :=
  s ≠ "" && s.data.all Char.isDigit

/-- `_format_model_name(model_path)`: human-readable model name. -/
def _format_model_name (model_path : String) : String :=
  if model_path = "" then "Unknown"
  else
    let model_name :=
      if pyIn "/models/" model_path then (pySplitOn "/models/" model_path).getLastD ""
      else (pySplitOn "/" model_path).getLastD ""
    let model_name := pyReplace (pyReplace model_name "-" " ") "_" " "
    let words := pySplitWs model_name
    let formatted := String.intercalate " " (words.map pyCapitalize)
    if pyIn "gemini" (lowerStr formatted) then
      let parts := pySplitWs formatted
      if parts.length ≥ 2 ∧ pyIsDigit (pyReplace (parts.getD 1 "") "." "") then
        (parts.getD 0 "") ++ " " ++ (parts.getD 1 "") ++ " " ++
          String.intercalate " " (parts.drop 2)
      else formatted
    else formatted

/-- `_get_default_model_for_agent(agent_name)`. -/
def _get_default_model_for_agent (agent_name : String) : String :=
  let agent_lower := lowerStr agent_name
  if pyIn "orchestrator" agent_lower then "Codestral"
  else if pyIn "publisher" agent_lower then "Codestral"
  else if pyIn "analyzer" agent_lower ∨ pyIn "reviewer" agent_lower then "Gemini 2.5 Pro"
  else if pyIn "python" agent_lower ∨ pyIn "typescript" agent_lower then "Gemini 2.5 Pro"
  else "Gemini 2.5 Pro"

/-- `_estimate_token_usage(text)`: `(input_tokens, output_tokens)` from the
4-characters-per-token heuristic. -/
def _estimate_token_usage (text : String) : Nat × Nat :=
  let estimated_tokens := text.length / 4
  let input_tokens := estimated_tokens / 3
  (input_tokens, estimated_tokens - input_tokens)

/-- `_estimate_cost(input_tokens, output_tokens, model_name)` in USD, as an
exact decimal (the Python float arithmetic here is exact for these rates). -/
def _estimate_cost (input_tokens output_tokens : Nat) (model_name : String) : Dec :=
  let model_lower := lowerStr model_name
  let rates : Dec × Dec :=
    if pyIn "gemini" model_lower ∧ pyIn "2.5" model_lower then (⟨125, 2⟩, ⟨500, 2⟩)
    else if pyIn "gemini" model_lower then (⟨125, 2⟩, ⟨500, 2⟩)
    else (⟨0, 1⟩, ⟨0, 1⟩)
  Dec.add (Dec.mul ((Dec.ofNat input_tokens).divPow10 6) rates.1)
    (Dec.mul ((Dec.ofNat output_tokens).divPow10 6) rates.2)

/-- The `primary_model` selection of `_extract_performance_metrics` (the
`model_fallbacks[0].get("primary", ...)` expression, lines 359-362 of the
source, with the `TypeError` a non-subscriptable value would raise). -/
def perfPrimary (mf : PyVal) : Except PyErr PyVal :=
  if mf.truthy then
    match pySubscript0 mf with
    | none => .error ⟨"TypeError", "object is not subscriptable"⟩
    | some first =>
      match first with
      | .vdict fd => .ok ((dictGet "primary" fd).getD (.vstr "gemini-2.5-pro"))
      | _ => .ok (.vstr "gemini-2.5-pro")
  else .ok (.vstr "gemini-2.5-pro")

/-- The remainder of `_extract_performance_metrics` once `primary_model` is
known: cost estimation, agent count and the assembled metrics mapping. -/
def perfAssemble (combined_text : String) (merged_state : List (String × PyVal))
    (pm : List (String × PyVal)) (mf primary : PyVal) :
    Except PyErr (List (String × PyVal)) :=
  let duration := (dictGet "review_duration_seconds" pm).getD (.vnum ⟨0, 1⟩)
  let chunks := (dictGet "chunks_received" pm).getD (.vnum ⟨0, 0⟩)
  let tk := _estimate_token_usage combined_text
  let total_tokens := tk.1 + tk.2
  match primary with
  | .vstr primary_model =>
    let estimated_cost := _estimate_cost tk.1 tk.2 primary_model
    match pyLen mf with
    | none => .error ⟨"TypeError", "object has no len()"⟩
    | some count0 =>
      let agents_count :=
        if count0 = 0 then
          max ((merged_state.filter (fun kv =>
            pyIn "python" (lowerStr kv.1) ∨ pyIn "typescript" (lowerStr kv.1) ∨
            pyIn "orchestrator" (lowerStr kv.1) ∨ pyIn "publisher" (lowerStr kv.1))).length) 2
        else count0
      .ok [("review_duration_seconds", duration),
           ("tokens_used", .vnum (Dec.ofNat total_tokens)),
           ("input_tokens", .vnum (Dec.ofNat tk.1)),
           ("output_tokens", .vnum (Dec.ofNat tk.2)),
           ("estimated_cost_usd", .vnum estimated_cost),
           ("agents_used", .vnum (Dec.ofNat agents_count)),
           ("tool_calls", .vnum ⟨0, 0⟩),
           ("chunks_received", chunks)]
  | v => if v.truthy
         then .error ⟨"TypeError", "argument is not a string"⟩
         else .ok []

/-- `_extract_performance_metrics(combined_text, merged_state)`; errors model
the `AttributeError`/`TypeError` raised on ill-shaped `performance_metrics`
or `model_fallbacks` state entries. -/
def _extract_performance_metrics (combined_text : String)
    (merged_state : List (String × PyVal)) : Except PyErr (List (String × PyVal)) :=
  match (dictGet "performance_metrics" merged_state).getD (.vdict []) with
  | .vdict pm =>
    let mf := (dictGet "model_fallbacks" merged_state).getD (.vlist [])
    match perfPrimary mf with
    | .error e => .error e
    | .ok primary => perfAssemble combined_text merged_state pm mf primary
  | _ => .error ⟨"AttributeError", "object has no attribute get"⟩

/-- One step of the `model_fallbacks` loop of `_extract_model_usage`
(lines 413-425): state `(agents_info, fallbacks_used, agents_with_fallbacks)`.
Non-string agent names are outside the model (dict keys are modelled as
strings) and yield an error. -/
def fallbackInfoStep (st : List (String × PyVal) × List String × List String)
    (fallback_info : PyVal) :
    Except PyErr (List (String × PyVal) × List String × List String) :=
  match fallback_info with
  | .vdict fd =>
    let agentV := (dictGet "agent" fd).getD (.vstr "Unknown")
    match agentV with
    | .vstr agent_name =>
      let primaryV := (dictGet "primary" fd).getD (.vstr "")
      let fallbackV := (dictGet "fallback" fd).getD (.vstr "")
      let fmt : PyVal → Except PyErr String := fun v =>
        match v with
        | .vstr s => .ok (_format_model_name s)
        | w => if w.truthy then .error ⟨"TypeError", "argument is not a string"⟩
               else .ok "Unknown"
      match fmt primaryV with
      | .error e => .error e
      | .ok fmtPrimary =>
        match fmt fallbackV with
        | .error e => .error e
        | .ok fmtFallback =>
          let info : PyVal := .vdict [("primary", .vstr fmtPrimary),
            ("fallback", .vstr fmtFallback), ("used", .vstr fmtFallback)]
          .ok (dictSet agent_name info st.1,
               st.2.1 ++ [agent_name ++ " (" ++ fmtFallback ++ ")"],
               st.2.2 ++ [agent_name])
    | _ => .error ⟨"TypeError", "non-string agent name (model restriction)"⟩
  | _ => .ok st

/-- Fold `fallbackInfoStep` over the entries. -/
def fallbackInfoLoop (items : List PyVal)
    (st : List (String × PyVal) × List String × List String) :
    Except PyErr (List (String × PyVal) × List String × List String) :=
  match items with
  | [] => .ok st
  | x :: xs =>
    match fallbackInfoStep st x with
    | .error e => .error e
    | .ok st' => fallbackInfoLoop xs st'

/-- Lines 427-466 of `_extract_model_usage`: the pure assembly run after the
`model_fallbacks` loop. -/
def modelUsageAssemble (merged_state : List (String × PyVal))
    (res : List (String × PyVal) × List String × List String) :
    List (String × PyVal) :=
  match res with
  | (agents_info, fallbacks_used, agents_with_fallbacks) =>
      let potential_agents : List String :=
        merged_state.filterMap (fun kv =>
          if pyIn "python" (lowerStr kv.1) ∨ pyIn "typescript" (lowerStr kv.1) then
            let agent_name :=
              if pyIn "python" (lowerStr kv.1) then "PythonCodeAnalyzer"
              else "TypeScriptCodeAnalyzer"
            if ¬ containsKey agent_name agents_info then some agent_name else none
          else none)
      let agents_info := potential_agents.foldl (fun ai agent_name =>
        if agent_name ∉ agents_with_fallbacks then
          let default_model := _get_default_model_for_agent agent_name
          dictSet agent_name (.vdict [("primary", .vstr default_model),
            ("fallback", .vstr ""), ("used", .vstr default_model)]) ai
        else ai) agents_info
      let agents_info :=
        if (((dictGet "code_review_output" merged_state).getD .vnone).truthy) ∨
           (((dictGet "formatted_output" merged_state).getD .vnone).truthy) then
          ["CodeReviewOrchestrator", "ReviewPublisher"].foldl (fun ai agent_name =>
            if ¬ containsKey agent_name ai then
              let default_model := _get_default_model_for_agent agent_name
              dictSet agent_name (.vdict [("primary", .vstr default_model),
                ("fallback", .vstr ""), ("used", .vstr default_model)]) ai
            else ai) agents_info
        else agents_info
      [("agents", .vdict agents_info),
       ("fallbacks_used", .vlist (fallbacks_used.map (fun s => .vstr s))),
       ("used_fallback", .vbool (fallbacks_used.length > 0))]

/-- `_extract_model_usage(merged_state)` (lines 403-466): iterate the
`model_fallbacks` entries, then assemble the usage summary. -/
def _extract_model_usage (merged_state : List (String × PyVal)) :
    Except PyErr (List (String × PyVal)) :=
  match pyIter ((dictGet "model_fallbacks" merged_state).getD (.vlist [])) with
  | none => .error ⟨"TypeError", "object is not iterable"⟩
  | some items =>
    (fallbackInfoLoop items ([], [], [])).map (modelUsageAssemble merged_state)

/-- The default metrics object substituted when `metrics` is missing. -/
def default_metrics : PyVal :=
  .vdict [("files_reviewed", .vnum ⟨0, 0⟩), ("issues_found", .vnum ⟨0, 0⟩),
          ("critical_issues", .vnum ⟨0, 0⟩), ("warnings", .vnum ⟨0, 0⟩),
          ("suggestions", .vnum ⟨0, 0⟩), ("style_score", .vnum ⟨0, 1⟩)]

/-- `if "performance" not in structured: structured["performance"] = ...`. -/
def ensurePerf (d2 : List (String × PyVal)) (combined_text : String)
    (merged_state : List (String × PyVal)) : Except PyErr (List (String × PyVal)) :=
  if containsKey "performance" d2 then .ok d2
  else (_extract_performance_metrics combined_text merged_state).map
    (fun pm => dictSet "performance" (.vdict pm) d2)

/-- `if "model_usage" not in structured: ...`, then the performance step. -/
def ensureMU (d1 : List (String × PyVal)) (combined_text : String)
    (merged_state : List (String × PyVal)) : Except PyErr (List (String × PyVal)) :=
  if containsKey "model_usage" d1 then ensurePerf d1 combined_text merged_state
  else
    match _extract_model_usage merged_state with
    | .error e => .error e
    | .ok mu => ensurePerf (dictSet "model_usage" (.vdict mu) d1) combined_text merged_state

/-- The block repeated at lines 491-507, 519-535 and 562-579 of
`coerce_review_output`: ensure `metrics`, then `model_usage`, then
`performance` are present. -/
def ensureDefaults (d : List (String × PyVal)) (combined_text : String)
    (merged_state : List (String × PyVal)) : Except PyErr (List (String × PyVal)) :=
  ensureMU (if containsKey "metrics" d then d else dictSet "metrics" default_metrics d)
    combined_text merged_state

/-- Lines 551-561 of `coerce_review_output`: when the extracted object's
summary is falsy, backfill it from the prose before the last `{` when long
enough, else from the whole text. -/
def backfillSummary (parsed : List (String × PyVal)) (combined_text : String) :
    List (String × PyVal) :=
  if ¬ (((dictGet "summary" parsed).getD .vnone).truthy) ∧ combined_text ≠ "" then
    match lastOccurrence ['{'] combined_text.data with
    | some json_start =>
      if json_start > 0 then
        if pyStrip ⟨combined_text.data.take json_start⟩ ≠ "" ∧
           (pyStrip ⟨combined_text.data.take json_start⟩).length > 20 then
          dictSet "summary" (.vstr (pyStrip ⟨combined_text.data.take json_start⟩)) parsed
        else dictSet "summary" (.vstr combined_text) parsed
      else dictSet "summary" (.vstr combined_text) parsed
    | none => dictSet "summary" (.vstr combined_text) parsed
  else parsed

/-- The `if combined_text:` phase of `coerce_review_output` (lines 542-619):
extract JSON from the text, else wrap the text as a COMMENT, else synthesize
the diagnostic result. -/
def coerceTextPhase (combined_text : String)
    (merged_state : List (String × PyVal)) : Except PyErr (List (String × PyVal)) :=
  if combined_text ≠ "" then
    match _extract_json_from_text combined_text with
    | some parsed =>
      ensureDefaults (backfillSummary parsed combined_text) combined_text merged_state
    | none =>
      match _extract_model_usage merged_state with
      | .error e => .error e
      | .ok mu =>
        match _extract_performance_metrics combined_text merged_state with
        | .error e => .error e
        | .ok pm =>
          .ok [("summary", .vstr combined_text),
               ("inline_comments", .vlist []),
               ("overall_status", .vstr "COMMENT"),
               ("metrics", default_metrics),
               ("model_usage", .vdict mu),
               ("performance", .vdict pm)]
  else
    match _extract_model_usage merged_state with
    | .error e => .error e
    | .ok mu =>
      match _extract_performance_metrics combined_text merged_state with
      | .error e => .error e
      | .ok pm =>
        .ok [("summary", .vstr ("Code review completed successfully, but the review content could not be " ++
               "extracted from the agent response. This usually indicates a streaming " ++
               "response schema mismatch. Please check workflow logs for details.")),
             ("inline_comments", .vlist []),
             ("overall_status", .vstr "COMMENT"),
             ("metrics", default_metrics),
             ("model_usage", .vdict mu),
             ("performance", .vdict pm)]

/-- `structured = merged_state.get("code_review_output") or
merged_state.get("formatted_output")` (line 483 of the source). -/
def coerceStructured (merged_state : List (String × PyVal)) : PyVal :=
  if ((dictGet "code_review_output" merged_state).getD .vnone).truthy then
    (dictGet "code_review_output" merged_state).getD .vnone
  else (dictGet "formatted_output" merged_state).getD .vnone

/-- Path 1 of `coerce_review_output` (lines 486-507): `structured` is a
mapping; use it when it has a required field, backfilling an empty summary
from the combined text, else fall through to the text phase. -/
def coerceDictPath (combined_text : String)
    (merged_state d : List (String × PyVal)) : Except PyErr (List (String × PyVal)) :=
  if containsKey "summary" d || containsKey "overall_status" d then
    ensureDefaults
      (if ¬ (((dictGet "summary" d).getD .vnone).truthy) ∧ combined_text ≠ "" then
         dictSet "summary" (.vstr combined_text) d
       else d)
      combined_text merged_state
  else coerceTextPhase combined_text merged_state

/-- `coerce_review_output(combined_text, merged_state)`: priority
state-mapping, state-string, text JSON, text wrap, diagnostic. -/
def coerce_review_output (combined_text : String)
    (merged_state : List (String × PyVal)) : Except PyErr (List (String × PyVal)) :=
  match coerceStructured merged_state with
  | .vdict d => coerceDictPath combined_text merged_state d
  | .vstr s =>
    if pyStrip s ≠ "" then
      match parseJson s with
      | some (.vdict parsed) =>
        let parsed :=
          if ¬ (((dictGet "summary" parsed).getD .vnone).truthy) ∧ combined_text ≠ "" then
            dictSet "summary" (.vstr combined_text) parsed
          else parsed
        ensureDefaults parsed combined_text merged_state
      | some _ => coerceTextPhase combined_text merged_state
      | none => coerceTextPhase (pyStrip (combined_text ++ "\n" ++ s)) merged_state
    else coerceTextPhase combined_text merged_state
  | _ => coerceTextPhase combined_text merged_state

/-! ### `app/utils/model_fallback.py` and `app/utils/model_router.py` -/

/-- The fixed vocabulary of `is_token_quota_error`. -/
def token_quota_indicators : List String :=
  ["RESOURCE_EXHAUSTED", "429", "QUOTA_EXCEEDED", "RATE_LIMIT", "TOKEN_LIMIT",
   "CONTEXT_LENGTH", "MAX_TOKENS", "OUT_OF_TOKENS", "QUOTA"]

/-- `is_token_quota_error(error)`: upper-case `str(error)` and the type name
and test each indicator for substring membership in either. -/
def is_token_quota_error (e : PyErr) : Bool :=
  let error_str := upperStr e.msg
  let error_type := upperStr e.typeName
  token_quota_indicators.any (fun ind => pyIn ind error_str || pyIn ind error_type)

/-- `get_fallback_model(primary_model)`: the fallback map with its exact-match,
codestral, gemini and default stages. -/
def get_fallback_model (primary_model : String) : String :=
  if primary_model = "gemini-2.5-pro" then "publishers/google/models/llama-4"
  else if primary_model = "gemini-2.5-flash" then "publishers/mistral-ai/models/codestral"
  else if primary_model = "gemini-2.0-flash" then "publishers/mistral-ai/models/codestral"
  else if primary_model = "publishers/mistral-ai/models/codestral" then "publishers/google/models/llama-4"
  else if primary_model = "codestral" then "publishers/google/models/llama-4"
  else if primary_model = "default" then "publishers/google/models/llama-4"
  else if pyIn "codestral" (lowerStr primary_model) then "publishers/google/models/llama-4"
  else if strStartsWith primary_model "gemini" then
    (if pyIn "flash" (lowerStr primary_model) then "publishers/mistral-ai/models/codestral"
     else "publishers/google/models/llama-4")
  else "publishers/google/models/llama-4"

/-- `FALLBACK_ENABLED` from `app/config.py`:
`os.getenv("FALLBACK_ENABLED", "true").lower() == "true"`. -/
def FALLBACK_ENABLED (env : Option String) : Bool :=
  lowerStr (env.getD "true") = "true"

/-- The state of a `ModelRouter`. -/
structure ModelRouter where
  primary_model : String
  secondary_model : String
  last_used_model : Option String
  used_fallback : Bool

/-- `ModelRouter.__init__`: secondary auto-selected when absent. -/
def ModelRouter.init (primary : String) (secondary : Option String) : ModelRouter :=
  ⟨primary, secondary.getD (get_fallback_model primary), none, false⟩

/-- `ModelRouter.get_model`. -/
def ModelRouter.get_model (r : ModelRouter) : String :=
  if r.used_fallback then r.secondary_model else r.primary_model

/-- `ModelRouter.should_fallback`. -/
def ModelRouter.should_fallback (fallbackEnabled : Bool) (e : PyErr) : Bool :=
  fallbackEnabled && is_token_quota_error e

/-- `ModelRouter.record_fallback` (idempotent). -/
def ModelRouter.record_fallback (r : ModelRouter) : ModelRouter :=
  if ¬ r.used_fallback then
    { r with used_fallback := true, last_used_model := some r.secondary_model }
  else r

/-- The FallbackRecord appended into session state. -/
def fallbackRecord (name primary secondary : String) : PyVal :=
  .vdict [("agent", .vstr name), ("primary", .vstr primary), ("fallback", .vstr secondary)]

/-- `state["model_fallbacks"] = []` if absent, then `.append(rec)`;
the error models `.append` on a non-list value. -/
def append_fallback (st : List (String × PyVal)) (rec : PyVal) :
    Except PyErr (List (String × PyVal)) :=
  let st1 := if containsKey "model_fallbacks" st then st
             else dictSet "model_fallbacks" (.vlist []) st
  match dictGet "model_fallbacks" st1 with
  | some (.vlist l) => .ok (dictSet "model_fallbacks" (.vlist (l ++ [rec])) st1)
  | _ => .error ⟨"AttributeError", "object has no attribute append"⟩

/-- `RoutedAgent._run_async_impl`: one invocation, given the behaviour of the
underlying agent as a function `attempt` from the configured model to an
outcome.  Returns the event, the router state, and the session state
(`hasSession` models the `hasattr(invocation_context, "session")` guard). -/
def run_async_impl (name : String) (fallbackEnabled : Bool) (r : ModelRouter)
    (hasSession : Bool) (st : List (String × PyVal))
    (attempt : String → Except PyErr PyVal) :
    Except PyErr (PyVal × ModelRouter × List (String × PyVal)) :=
  match attempt r.get_model with
  | .ok result =>
    if r.used_fallback ∧ hasSession then
      match append_fallback st (fallbackRecord name r.primary_model r.secondary_model) with
      | .error e => .error e
      | .ok st' => .ok (result, r, st')
    else .ok (result, r, st)
  | .error e =>
    if ModelRouter.should_fallback fallbackEnabled e then
      let r' := r.record_fallback
      match attempt r'.get_model with
      | .ok result =>
        if hasSession then
          match append_fallback st (fallbackRecord name r'.primary_model r'.secondary_model) with
          | .error e2 => .error e2
          | .ok st' => .ok (result, r', st')
        else .ok (result, r', st)
      | .error fallback_error =>
        .error ⟨"RuntimeError",
          "Agent " ++ name ++ " failed with both models. " ++
          "Primary (" ++ r'.primary_model ++ ") error: " ++ e.msg ++ ". " ++
          "Secondary (" ++ r'.secondary_model ++ ") error: " ++ fallback_error.msg⟩
    else .error e

/-! ### `webhook_service/agent_client.py` -/

/-- Keep a list only when every element is a string (Python's
`"\n".join` raises otherwise). -/
def asStrList : List PyVal → Option (List String)
  | [] => some []
  | .vstr s :: rest => (asStrList rest).map (fun l => s :: l)
  | _ => none

/-- The per-chunk body of the extraction loop of `review_pr`
(lines 127-141): collect truthy `content.parts[].text` values and merge
truthy `actions.state_delta` mappings.  `dict.update` with a non-mapping is
modelled as an error. -/
def client_chunk_step (acc : List PyVal × List (String × PyVal)) (chunk : PyVal) :
    Except PyErr (List PyVal × List (String × PyVal)) :=
  let textsE : Except PyErr (List PyVal) :=
    if hasAttr chunk "content" ∧ (getAttr chunk "content").truthy then
      let content := getAttr chunk "content"
      if hasAttr content "parts" ∧ (getAttr content "parts").truthy then
        match pyIter (getAttr content "parts") with
        | none => .error ⟨"TypeError", "object is not iterable"⟩
        | some parts =>
          .ok (acc.1 ++ parts.filterMap (fun part =>
            if hasAttr part "text" ∧ (getAttr part "text").truthy then
              some (getAttr part "text")
            else none))
      else .ok acc.1
    else .ok acc.1
  match textsE with
  | .error e => .error e
  | .ok texts =>
    if hasAttr chunk "actions" ∧ (getAttr chunk "actions").truthy then
      let actions := getAttr chunk "actions"
      if hasAttr actions "state_delta" ∧ (getAttr actions "state_delta").truthy then
        match getAttr actions "state_delta" with
        | .vdict sd => .ok (texts, dictUpdate acc.2 sd)
        | _ => .error ⟨"TypeError", "update requires a mapping (model restriction)"⟩
      else .ok (texts, acc.2)
    else .ok (texts, acc.2)

/-- Fold `client_chunk_step` over the chunks. -/
def client_loop : List PyVal → (List PyVal × List (String × PyVal)) →
    Except PyErr (List PyVal × List (String × PyVal))
  | [], acc => .ok acc
  | c :: cs, acc =>
    match client_chunk_step acc c with
    | .error e => .error e
    | .ok acc' => client_loop cs acc'

/-- The metrics object of the text-fallback wrap in `review_pr`. -/
def client_default_metrics : PyVal :=
  .vdict [("files_reviewed", .vnum ⟨0, 0⟩), ("issues_found", .vnum ⟨0, 0⟩),
          ("critical_issues", .vnum ⟨0, 0⟩), ("warnings", .vnum ⟨0, 0⟩),
          ("suggestions", .vnum ⟨0, 0⟩), ("style_score", .vnum ⟨0, 1⟩)]

/-- Lines 117-194 of `review_pr`: the response-extraction phase run once the
worker finished cleanly with its chunk buffer. -/
def review_pr_body (chunks : List PyVal) : Except PyErr (List (String × PyVal)) :=
  if chunks.isEmpty then .error ⟨"Exception", "No response chunks received from agent"⟩
  else
    match client_loop chunks ([], []) with
    | .error e => .error e
    | .ok (all_text_parts, all_state_deltas) =>
      let structured_output : Option PyVal :=
        match dictGet "code_review_output" all_state_deltas with
        | some v => some v
        | none =>
          match dictGet "formatted_output" all_state_deltas with
          | some v => some v
          | none =>
            all_state_deltas.findSome? (fun kv =>
              if (pyIn "output" (lowerStr kv.1) || pyIn "review" (lowerStr kv.1)) &&
                 (match kv.2 with | .vdict _ => true | .vlist _ => true | _ => false) then
                some kv.2
              else none)
      let fromStructured : Option (List (String × PyVal)) :=
        match structured_output with
        | some v =>
          if v.truthy then
            match v with
            | .vdict d =>
              if containsKey "overall_status" d ∨ containsKey "summary" d then some d
              else none
            | .vstr s =>
              match parseJson s with
              | some (.vdict parsed) => some parsed
              | _ => none
            | _ => none
          else none
        | none => none
      match fromStructured with
      | some d => .ok d
      | none =>
        match asStrList all_text_parts with
        | none => .error ⟨"TypeError", "sequence item: expected str instance"⟩
        | some strs =>
          let combined_text := pyStrip (String.intercalate "\n" strs)
          if combined_text ≠ "" then
            .ok [("summary", .vstr combined_text),
                 ("inline_comments", .vlist []),
                 ("overall_status", .vstr "COMMENT"),
                 ("metrics", client_default_metrics)]
          else
            .error ⟨"Exception",
              "Failed to extract response from " ++ toString chunks.length ++ " chunks"⟩

/-- The observable outcome of the streaming worker plus the monitor loop of
`review_pr`: the wall-clock timeout fires with some number of chunks
received, or the worker finishes (with an exception or with its buffer). -/
inductive StreamOutcome where
  | timesOut : Nat → StreamOutcome
  | workerError : PyErr → StreamOutcome
  | finished : List PyVal → StreamOutcome

/-- The `TimeoutError` raised by the monitor loop (line 104). -/
def timeout_error (timeout_seconds received : Nat) : PyErr :=
  ⟨"TimeoutError",
   "Stream query timed out after " ++ toString timeout_seconds ++ "s (" ++
     ("received " ++ toString received ++ " chunks") ++ ")"⟩

/-- `AgentEngineClient.review_pr`: the whole body runs inside
`try: ... except Exception as e: raise Exception(f"Agent Engine call failed: {e}") from e`,
so every failure — the monitor's `TimeoutError` included — surfaces as a
generic `Exception` whose cause is the original error (the second component). -/
def review_pr (timeout_seconds : Nat) (outcome : StreamOutcome) :
    Except (PyErr × PyErr) (List (String × PyVal)) :=
  let body : Except PyErr (List (String × PyVal)) :=
    match outcome with
    | .timesOut n => .error (timeout_error timeout_seconds n)
    | .workerError e => .error e
    | .finished chunks => review_pr_body chunks
  match body with
  | .ok d => .ok d
  | .error e => .error (⟨"Exception", "Agent Engine call failed: " ++ e.msg⟩, e)

/-- A well-shaped `model_fallbacks` entry: any non-dict (skipped by the code),
or a dict whose `agent`, `primary` and `fallback` fields, when present, are
strings. -/
def fallback_entry_ok : PyVal → Bool
  | .vdict fd =>
    (match dictGet "agent" fd with
     | none => true | some (.vstr _) => true | some _ => false) &&
    (match dictGet "primary" fd with
     | none => true | some (.vstr _) => true | some _ => false) &&
    (match dictGet "fallback" fd with
     | none => true | some (.vstr _) => true | some _ => false)
  | _ => true

/-- Well-shaped auxiliary state entries: `performance_metrics` absent or a
mapping, and `model_fallbacks` absent or a list of well-shaped entries —
exactly the shapes on which the metadata helpers of `coerce_review_output`
do not raise. -/
def state_aux_ok (st : List (String × PyVal)) : Bool :=
  (match dictGet "performance_metrics" st with
   | none => true | some (.vdict _) => true | some _ => false) &&
  (match dictGet "model_fallbacks" st with
   | none => true
   | some (.vlist l) => l.all fallback_entry_ok
   | some _ => false)
/-! ### Supporting lemmas -/

theorem listContains_iff (n h : List Char) : listContains n h = true ↔ n <:+: h := by
  induction h with
  | nil => simp [listContains, List.isEmpty_iff]
  | cons c t ih =>
    simp [listContains, ih, List.infix_cons_iff, List.isPrefixOf_iff_prefix]

theorem dictGet_dictSet (k k' : String) (v : PyVal) (d : List (String × PyVal)) :
    dictGet k (dictSet k' v d) = if k' = k then some v else dictGet k d := by
  induction d with
  | nil => simp [dictGet, dictSet]
  | cons p rest ih =>
    obtain ⟨pk, pv⟩ := p
    by_cases h : pk = k'
    · subst h
      simp only [dictSet, if_pos rfl]
      by_cases h2 : pk = k
      · subst h2; simp [dictGet]
      · simp [dictGet, h2]
    · simp only [dictSet, if_neg h, dictGet]
      by_cases h2 : pk = k
      · have hk : ¬ k' = k := fun he => h (h2.trans he.symm)
        simp [h2, hk]
      · simp [h2, ih]

theorem containsKey_dictSet (k k' : String) (v : PyVal) (d : List (String × PyVal)) :
    containsKey k (dictSet k' v d) = if k' = k then true else containsKey k d := by
  rw [containsKey, dictGet_dictSet]
  split <;> simp [containsKey]

theorem pyIn_of_eq_append (x hay pre suf : String)
    (h : hay.data = pre.data ++ x.data ++ suf.data) : pyIn x hay = true := by
  rw [pyIn, listContains_iff]
  exact ⟨pre.data, suf.data, h.symm⟩

/-! ### Claim theorems -/

/-- C9: `is_token_quota_error` is a pure predicate returning true exactly when
some token of the fixed vocabulary is a substring of the upper-cased message
or of the upper-cased type name; `"RESOURCE_EXHAUSTED: 429"` classifies as
retryable and a `ValueError` with message `"bad argument"` does not. -/
theorem is_token_quota_error_spec :
    (∀ e : PyErr, is_token_quota_error e = true ↔
      ∃ ind ∈ token_quota_indicators,
        (ind.data <:+: (upperStr e.msg).data ∨ ind.data <:+: (upperStr e.typeName).data)) ∧
    is_token_quota_error ⟨"Exception", "RESOURCE_EXHAUSTED: 429"⟩ = true ∧
    is_token_quota_error ⟨"ValueError", "bad argument"⟩ = false := by
  refine ⟨fun e => ?_, by rfl, by rfl⟩
  simp only [is_token_quota_error, List.any_eq_true, Bool.or_eq_true, pyIn, listContains_iff]

/-- C6: when the primary attempt raises a quota/token error and the secondary
attempt succeeds, the invocation ends `ok` with exactly one FallbackRecord
appended to the caller-owned `model_fallbacks` list (never zero, never two)
and with the secondary endpoint as the endpoint in use. -/
theorem routed_fallback_once (name : String) (fb : Bool) (r : ModelRouter)
    (st : List (String × PyVal)) (l : List PyVal)
    (attempt : String → Except PyErr PyVal) (e : PyErr) (v : PyVal)
    (hfb : fb = true) (hr : r.used_fallback = false)
    (hq : is_token_quota_error e = true)
    (h1 : attempt r.primary_model = .error e)
    (h2 : attempt r.secondary_model = .ok v)
    (hl : dictGet "model_fallbacks" st = some (.vlist l) ∨
          (dictGet "model_fallbacks" st = none ∧ l = [])) :
    ∃ st', run_async_impl name fb r true st attempt = .ok (v, r.record_fallback, st') ∧
      dictGet "model_fallbacks" st' =
        some (.vlist (l ++ [fallbackRecord name r.primary_model r.secondary_model])) ∧
      (r.record_fallback).get_model = r.secondary_model ∧
      (r.record_fallback).used_fallback = true := by
  have hget : r.get_model = r.primary_model := by
    simp [ModelRouter.get_model, hr]
  have hrf : r.record_fallback =
      { r with used_fallback := true, last_used_model := some r.secondary_model } := by
    simp [ModelRouter.record_fallback, hr]
  have hget2 : (r.record_fallback).get_model = r.secondary_model := by
    rw [hrf]; simp [ModelRouter.get_model]
  have hsf : ModelRouter.should_fallback fb e = true := by
    simp [ModelRouter.should_fallback, hfb, hq]
  have huf : (r.record_fallback).used_fallback = true := by
    rw [hrf]
  have hsec : (r.record_fallback).secondary_model = r.secondary_model := by
    rw [hrf]
  have hprim : (r.record_fallback).primary_model = r.primary_model := by
    rw [hrf]
  simp only [run_async_impl, hget, h1, hsf, if_true, hget2, hprim, hsec, h2, and_true,
    if_pos rfl, append_fallback]
  rcases hl with h | ⟨h, hl0⟩
  · have hck : containsKey "model_fallbacks" st = true := by simp [containsKey, h]
    simp only [hck, if_true, h]
    exact ⟨_, rfl, by simp [dictGet_dictSet], trivial, huf⟩
  · have hck : containsKey "model_fallbacks" st = false := by simp [containsKey, h]
    subst hl0
    simp only [hck, Bool.false_eq_true, if_false, dictGet_dictSet, if_pos rfl]
    exact ⟨_, rfl, by simp [dictGet_dictSet], trivial, huf⟩

/-- Witness for C6 at a concrete router, task and empty session state. -/
theorem routed_fallback_once_witness :
    ∃ st', run_async_impl "CodeAnalyzer" (FALLBACK_ENABLED none)
        (ModelRouter.init "gemini-2.5-pro" none) true []
        (fun m => if m = "gemini-2.5-pro"
                  then .error ⟨"Exception", "RESOURCE_EXHAUSTED: 429"⟩
                  else .ok .vnone) =
      .ok (.vnone, (ModelRouter.init "gemini-2.5-pro" none).record_fallback, st') ∧
      dictGet "model_fallbacks" st' =
        some (.vlist ([] ++ [fallbackRecord "CodeAnalyzer"
          (ModelRouter.init "gemini-2.5-pro" none).primary_model
          (ModelRouter.init "gemini-2.5-pro" none).secondary_model])) ∧
      ((ModelRouter.init "gemini-2.5-pro" none).record_fallback).get_model =
        (ModelRouter.init "gemini-2.5-pro" none).secondary_model ∧
      ((ModelRouter.init "gemini-2.5-pro" none).record_fallback).used_fallback = true :=
  routed_fallback_once "CodeAnalyzer" (FALLBACK_ENABLED none)
    (ModelRouter.init "gemini-2.5-pro" none) [] []
    (fun m => if m = "gemini-2.5-pro"
              then .error ⟨"Exception", "RESOURCE_EXHAUSTED: 429"⟩
              else .ok .vnone)
    ⟨"Exception", "RESOURCE_EXHAUSTED: 429"⟩ .vnone
    (by rfl) (by rfl) (by rfl) (by rfl) (by rfl) (Or.inr ⟨rfl, rfl⟩)

/-- C7: when the first attempt raises a retryable error and the second attempt
also raises, the invocation raises exactly one combined `RuntimeError` whose
message names both endpoint identifiers and includes both underlying causes. -/
theorem routed_both_fail (name : String) (fb hs : Bool) (r : ModelRouter)
    (st : List (String × PyVal)) (attempt : String → Except PyErr PyVal) (e1 e2 : PyErr)
    (hr : r.used_fallback = false)
    (h1 : attempt r.primary_model = .error e1)
    (hsf : ModelRouter.should_fallback fb e1 = true)
    (h2 : attempt r.secondary_model = .error e2) :
    ∃ err : PyErr, run_async_impl name fb r hs st attempt = .error err ∧
      err.typeName = "RuntimeError" ∧
      pyIn r.primary_model err.msg = true ∧ pyIn r.secondary_model err.msg = true ∧
      pyIn e1.msg err.msg = true ∧ pyIn e2.msg err.msg = true := by
  have hget : r.get_model = r.primary_model := by
    simp [ModelRouter.get_model, hr]
  have hrf : r.record_fallback =
      { r with used_fallback := true, last_used_model := some r.secondary_model } := by
    simp [ModelRouter.record_fallback, hr]
  have hget2 : (r.record_fallback).get_model = r.secondary_model := by
    rw [hrf]; simp [ModelRouter.get_model]
  have hsec : (r.record_fallback).secondary_model = r.secondary_model := by rw [hrf]
  have hprim : (r.record_fallback).primary_model = r.primary_model := by rw [hrf]
  simp only [run_async_impl, hget, h1, hsf, if_true, hget2, hsec, hprim, h2]
  refine ⟨_, rfl, rfl, ?_, ?_, ?_, ?_⟩
  · exact pyIn_of_eq_append r.primary_model _
      ("Agent " ++ name ++ " failed with both models. " ++ "Primary (")
      (") error: " ++ e1.msg ++ ". " ++ "Secondary (" ++ r.secondary_model ++
        ") error: " ++ e2.msg)
      (by simp [String.data_append, List.append_assoc])
  · exact pyIn_of_eq_append r.secondary_model _
      ("Agent " ++ name ++ " failed with both models. " ++ "Primary (" ++
        r.primary_model ++ ") error: " ++ e1.msg ++ ". " ++ "Secondary (")
      (") error: " ++ e2.msg)
      (by simp [String.data_append, List.append_assoc])
  · exact pyIn_of_eq_append e1.msg _
      ("Agent " ++ name ++ " failed with both models. " ++ "Primary (" ++
        r.primary_model ++ ") error: ")
      (". " ++ "Secondary (" ++ r.secondary_model ++ ") error: " ++ e2.msg)
      (by simp [String.data_append, List.append_assoc])
  · exact pyIn_of_eq_append e2.msg _
      ("Agent " ++ name ++ " failed with both models. " ++ "Primary (" ++
        r.primary_model ++ ") error: " ++ e1.msg ++ ". " ++ "Secondary (" ++
        r.secondary_model ++ ") error: ")
      ""
      (by simp [String.data_append, List.append_assoc,
        show ("" : String).data = [] from rfl])

/-- Witness for C7 at a concrete router and doubly-failing task. -/
theorem routed_both_fail_witness :
    ∃ err : PyErr, run_async_impl "CodeAnalyzer" true
        ⟨"gemini-2.5-pro", "publishers/google/models/llama-4", none, false⟩ false []
        (fun m => if m = "gemini-2.5-pro"
                  then .error ⟨"Exception", "RESOURCE_EXHAUSTED: 429"⟩
                  else .error ⟨"Exception", "model unavailable"⟩) = .error err ∧
      err.typeName = "RuntimeError" ∧
      pyIn "gemini-2.5-pro" err.msg = true ∧
      pyIn "publishers/google/models/llama-4" err.msg = true ∧
      pyIn "RESOURCE_EXHAUSTED: 429" err.msg = true ∧
      pyIn "model unavailable" err.msg = true :=
  routed_both_fail "CodeAnalyzer" true false
    ⟨"gemini-2.5-pro", "publishers/google/models/llama-4", none, false⟩ []
    (fun m => if m = "gemini-2.5-pro"
              then .error ⟨"Exception", "RESOURCE_EXHAUSTED: 429"⟩
              else .error ⟨"Exception", "model unavailable"⟩)
    ⟨"Exception", "RESOURCE_EXHAUSTED: 429"⟩ ⟨"Exception", "model unavailable"⟩
    (by rfl) (by rfl) (by rfl) (by rfl)

/-- C8 counterexample: on timeout, `review_pr` surfaces a **generic**
`Exception` (the catch-all wrap of line 196-198), not the timeout-specific
class; the `TimeoutError` survives only as the cause. -/
theorem review_pr_timeout_cex :
    review_pr 600 (.timesOut 3) =
      .error (⟨"Exception",
        "Agent Engine call failed: Stream query timed out after 600s (received 3 chunks)"⟩,
        ⟨"TimeoutError", "Stream query timed out after 600s (received 3 chunks)"⟩) ∧
    ("Exception" : String) ≠ "TimeoutError" := ⟨by rfl, by decide⟩

/-- C8 amended: when the producer never finishes within the timeout, the
error that escapes `review_pr` is a generic `Exception` wrapping a
`TimeoutError` cause, and both carry the count of events received so far. -/
theorem review_pr_timeout_generic (t n : Nat) (e c : PyErr)
    (h : review_pr t (.timesOut n) = .error (e, c)) :
    e.typeName = "Exception" ∧ c.typeName = "TimeoutError" ∧
    pyIn ("received " ++ toString n ++ " chunks") e.msg = true ∧
    pyIn ("received " ++ toString n ++ " chunks") c.msg = true := by
  have hh : review_pr t (.timesOut n) =
      .error (⟨"Exception", "Agent Engine call failed: " ++ (timeout_error t n).msg⟩,
        timeout_error t n) := rfl
  rw [hh] at h
  injection h with h1
  have he : e = ⟨"Exception", "Agent Engine call failed: " ++ (timeout_error t n).msg⟩ :=
    (congrArg Prod.fst h1).symm
  have hc : c = timeout_error t n := (congrArg Prod.snd h1).symm
  subst he; subst hc
  refine ⟨rfl, rfl, ?_, ?_⟩
  · exact pyIn_of_eq_append ("received " ++ toString n ++ " chunks") _
      ("Agent Engine call failed: " ++
        ("Stream query timed out after " ++ toString t ++ "s ("))
      ")"
      (by simp [timeout_error, String.data_append, List.append_assoc])
  · exact pyIn_of_eq_append ("received " ++ toString n ++ " chunks") _
      ("Stream query timed out after " ++ toString t ++ "s (")
      ")"
      (by simp [timeout_error, String.data_append, List.append_assoc])

/-- Witness for the amended C8 at `timeoutSeconds = 600` with 3 chunks. -/
theorem review_pr_timeout_generic_witness :
    (⟨"Exception",
      "Agent Engine call failed: Stream query timed out after 600s (received 3 chunks)"⟩ :
        PyErr).typeName = "Exception" ∧
    (⟨"TimeoutError",
      "Stream query timed out after 600s (received 3 chunks)"⟩ : PyErr).typeName =
        "TimeoutError" ∧
    pyIn ("received " ++ toString 3 ++ " chunks")
      (⟨"Exception",
        "Agent Engine call failed: Stream query timed out after 600s (received 3 chunks)"⟩ :
          PyErr).msg = true ∧
    pyIn ("received " ++ toString 3 ++ " chunks")
      (⟨"TimeoutError",
        "Stream query timed out after 600s (received 3 chunks)"⟩ : PyErr).msg = true :=
  review_pr_timeout_generic 600 3 _ _ (by rfl)

/-- The fragments of each event, `none` if any event's extraction raises. -/
def extractedFragments : List PyVal → Option (List (List String))
  | [] => some []
  | c :: cs =>
    match extract_text_parts c with
    | none => none
    | some p => (extractedFragments cs).map (fun fr => p :: fr)

theorem extractLoop_eq (cs : List PyVal) :
    ∀ (acc : List String) (st : List (String × PyVal)),
    extractLoop cs acc st = (extractedFragments cs).map
      (fun fr => (acc ++ fr.flatten,
        cs.foldl (fun s c => dictUpdate s (extract_state_delta c)) st)) := by
  induction cs with
  | nil => intro acc st; simp [extractLoop, extractedFragments]
  | cons c cs ih =>
    intro acc st
    rw [extractLoop, extractedFragments]
    cases hc : extract_text_parts c with
    | none => simp
    | some ps =>
      simp only []
      rw [ih]
      cases hm : extractedFragments cs with
      | none => simp
      | some fr => simp [List.append_assoc]

/-- The spec-side formula for the combined text: the per-event fragments in
arrival order, flattened, the empty ones dropped, joined by a newline, and
stripped. -/
def spec_combined_text (fragss : List (List String)) : String :=
  pyStrip (String.intercalate "\n" (fragss.flatten.filter (fun t => t ≠ "")))

/-- C4: for every event sequence (of any mix of shapes), the aggregator's
`combinedText` equals the non-empty text fragments extracted from each event
in arrival order, joined by `"\n"` and trimmed. -/
theorem combined_text_is_joined_fragments (chunks : List PyVal)
    (fragss : List (List String))
    (h : extractedFragments chunks = some fragss) :
    (extract_text_and_state chunks).map Prod.fst = some (spec_combined_text fragss) := by
  rw [extract_text_and_state, extractLoop_eq, h]
  simp [spec_combined_text]

/-- Witness for C4 on a mixed string / dict / attribute-object / `None`
sequence with an empty fragment dropped. -/
theorem combined_text_is_joined_fragments_witness :
    (extract_text_and_state
      [.vstr "hello",
       .vdict [("content", .vdict [("parts",
         .vlist [.vdict [("text", .vstr "world")], .vdict [("text", .vstr "")]])])],
       .vobj [("content", .vobj [("parts", .vlist [.vobj [("text", .vstr "x")]])])],
       .vnone]).map Prod.fst =
      some (spec_combined_text [["hello"], ["world"], ["x"], []]) :=
  combined_text_is_joined_fragments _ [["hello"], ["world"], ["x"], []] (by rfl)

theorem getLast?_cons_or {α : Type} (a : α) (l : List α) :
    (a :: l).getLast? = match l.getLast? with | some b => some b | none => some a := by
  induction l generalizing a with
  | nil => rfl
  | cons x xs ih =>
    rw [List.getLast?_cons_cons, ih x]
    cases hx : xs.getLast? <;> rfl

theorem dictGet_foldl_dictSet (k : String) (pairs : List (String × PyVal)) :
    ∀ d, dictGet k (pairs.foldl (fun acc kv => dictSet kv.1 kv.2 acc) d) =
      (match (pairs.filter (fun p => decide (p.1 = k))).getLast? with
       | some p => some p.2
       | none => dictGet k d) := by
  induction pairs with
  | nil => intro d; rfl
  | cons p ps ih =>
    intro d
    rw [List.foldl_cons, ih]
    by_cases hk : p.1 = k
    · simp only [List.filter_cons, hk, decide_eq_true_eq, if_pos trivial, if_true]
      rw [getLast?_cons_or]
      cases hps : (ps.filter (fun q => decide (q.1 = k))).getLast? with
      | none => simp [dictGet_dictSet, hk]
      | some q => simp
    · simp only [List.filter_cons]
      rw [if_neg (by simpa using hk)]
      cases hps : (ps.filter (fun q => decide (q.1 = k))).getLast? with
      | none => simp [hps, dictGet_dictSet, hk]
      | some q => simp [hps]

theorem foldl_dictUpdate_flatten (ds : List (List (String × PyVal))) :
    ∀ d, ds.foldl dictUpdate d = dictUpdate d ds.flatten := by
  induction ds with
  | nil => intro d; rfl
  | cons x xs ih =>
    intro d
    rw [List.foldl_cons, ih, List.flatten_cons]
    rw [dictUpdate, dictUpdate, dictUpdate, List.foldl_append]

/-- The spec-side last-write-wins formula: the last value assigned to `k`
across the deltas in arrival order. -/
def lastWrite (k : String) (deltas : List (List (String × PyVal))) : Option PyVal :=
  ((deltas.flatten.filter (fun p => decide (p.1 = k))).getLast?).map (fun p => p.2)

/-- C5: for every event sequence, `mergedState` maps a key to the value of
the last state delta assigning it, in arrival order (last-write-wins); a key
assigned only once keeps that value. -/
theorem merged_state_last_write (chunks : List PyVal) (t : String)
    (st : List (String × PyVal)) (k : String) (v : PyVal)
    (h : extract_text_and_state chunks = some (t, st))
    (hv : lastWrite k (chunks.map extract_state_delta) = some v) :
    dictGet k st = some v := by
  rw [extract_text_and_state, extractLoop_eq] at h
  cases hm : extractedFragments chunks with
  | none => rw [hm] at h; simp at h
  | some fr =>
    rw [hm] at h
    simp only [Option.map_some'] at h
    have hst : chunks.foldl (fun s c => dictUpdate s (extract_state_delta c)) [] = st := by
      have h2 := congrArg Prod.snd (Option.some.inj h)
      simpa using h2
    rw [← hst]
    rw [show chunks.foldl (fun s c => dictUpdate s (extract_state_delta c)) [] =
        (chunks.map extract_state_delta).foldl dictUpdate [] from (List.foldl_map _ _ _ _).symm]
    rw [foldl_dictUpdate_flatten, dictUpdate, dictGet_foldl_dictSet]
    rw [lastWrite] at hv
    cases hl : ((chunks.map extract_state_delta).flatten.filter
        (fun p => decide (p.1 = k))).getLast? with
    | none => rw [hl] at hv; simp at hv
    | some q => rw [hl] at hv; simp at hv; simp [hv]

/-- Witness for C5: the key `K` is assigned at two positions and ends with
the later value; a key assigned once keeps its value. -/
theorem merged_state_last_write_witness :
    dictGet "K" [("K", .vstr "b"), ("other", .vnum ⟨1, 0⟩)] = some (.vstr "b") :=
  merged_state_last_write
    [.vdict [("actions", .vdict [("state_delta",
       .vdict [("K", .vstr "a"), ("other", .vnum ⟨1, 0⟩)])])],
     .vdict [("actions", .vdict [("state_delta", .vdict [("K", .vstr "b")])])]]
    "" [("K", .vstr "b"), ("other", .vnum ⟨1, 0⟩)] "K" (.vstr "b") (by rfl) (by rfl)

theorem partText_ne (part : PyVal) (s : String) (h : partText part = some s) : s ≠ "" := by
  cases part with
  | vdict pd =>
    rw [partText] at h
    cases hg : dictGet "text" pd with
    | none => rw [hg] at h; cases h
    | some v =>
      rw [hg] at h
      cases v with
      | vstr t =>
        by_cases ht : t = "" <;> simp [ht] at h
        subst h; exact ht
      | vnone => cases h
      | vbool b => cases h
      | vnum q => cases h
      | vlist xs => cases h
      | vdict xs => cases h
      | vobj xs => cases h
  | vnone => cases h
  | vbool b => cases h
  | vnum q => cases h
  | vstr t => cases h
  | vlist xs => cases h
  | vobj xs => cases h

theorem mem_partsText (parts : List PyVal) (s : String)
    (h : s ∈ parts.filterMap partText) : s ≠ "" := by
  rw [List.mem_filterMap] at h
  obtain ⟨a, _, ha⟩ := h
  exact partText_ne a s ha

theorem contentDictParts_ne (cc : List (String × PyVal)) :
    ∀ s ∈ contentDictParts cc, s ≠ "" := by
  intro s hs
  rw [contentDictParts] at hs
  repeat' split at hs
  all_goals first
    | cases hs
    | exact mem_partsText _ s hs

theorem candText_ne (cand : PyVal) : ∀ s ∈ candText cand, s ≠ "" := by
  intro s hs
  cases cand <;> simp only [candText] at hs <;> try cases hs
  split at hs
  · exact contentDictParts_ne _ s hs
  · cases hs

theorem blockText_ne (c : PyVal) : ∀ s ∈ blockText c, s ≠ "" := by
  intro s hs
  cases c <;> simp only [blockText] at hs <;> try cases hs
  exact contentDictParts_ne _ s hs

theorem dictTextParts_ne (d : List (String × PyVal)) : ∀ s ∈ dictTextParts d, s ≠ "" := by
  intro s hs
  simp only [dictTextParts] at hs
  repeat' split at hs
  all_goals first
    | exact contentDictParts_ne _ s hs
    | (rw [List.mem_flatMap] at hs; obtain ⟨x, _, hmem⟩ := hs;
       first
         | exact candText_ne x s hmem
         | exact blockText_ne x s hmem)
    | (rw [List.mem_singleton] at hs; subst hs; assumption)
    | cases hs

theorem attrPartText_ne (part : PyVal) (s : String)
    (h : attrPartText part = some s) : s ≠ "" := by
  rw [attrPartText] at h
  split at h
  · rename_i t heq
    by_cases ht : t = "" <;> simp [ht] at h
    subst h; exact ht
  · cases h

theorem attrTextParts_ne (chunk : PyVal) (l : List String)
    (h : attrTextParts chunk = some l) : ∀ s ∈ l, s ≠ "" := by
  intro s hs
  simp only [attrTextParts] at h
  repeat' split at h
  all_goals try cases h
  all_goals first
    | (rw [List.mem_filterMap] at hs; obtain ⟨a, _, ha⟩ := hs;
       exact attrPartText_ne a s ha)
    | (rw [List.mem_singleton] at hs; subst hs; assumption)
    | cases hs

/-- C10: for every input chunk of any shape, every string in the fragment
list returned by `extract_text_parts` is non-empty — empty or missing text
fields are dropped, never emitted as empty fragments. -/
theorem extract_text_parts_nonempty (c : PyVal) (l : List String)
    (h : extract_text_parts c = some l) : ∀ s ∈ l, s ≠ "" := by
  intro s hs
  cases c with
  | vnone =>
    rw [extract_text_parts] at h
    cases h; cases hs
  | vstr s0 =>
    rw [extract_text_parts] at h
    by_cases h0 : s0 = "" <;> simp [h0] at h <;> subst h
    · cases hs
    · rw [List.mem_singleton] at hs; subst hs; exact h0
  | vdict d =>
    rw [extract_text_parts] at h
    cases h
    exact dictTextParts_ne d s hs
  | vbool b =>
    simp only [extract_text_parts] at h
    exact attrTextParts_ne _ _ h s hs
  | vnum q =>
    simp only [extract_text_parts] at h
    exact attrTextParts_ne _ _ h s hs
  | vlist xs =>
    simp only [extract_text_parts] at h
    exact attrTextParts_ne _ _ h s hs
  | vobj attrs =>
    simp only [extract_text_parts] at h
    exact attrTextParts_ne _ _ h s hs

/-- Witness for C10: a dict chunk whose parts hold one non-empty and one
empty text field yields exactly the non-empty fragment. -/
theorem extract_text_parts_nonempty_witness :
    extract_text_parts
      (.vdict [("content", .vdict [("parts",
        .vlist [.vdict [("text", .vstr "hi")], .vdict [("text", .vstr "")]])])]) =
      some ["hi"] ∧ ("hi" : String) ≠ "" :=
  ⟨by rfl,
   extract_text_parts_nonempty
     (.vdict [("content", .vdict [("parts",
       .vlist [.vdict [("text", .vstr "hi")], .vdict [("text", .vstr "")]])])])
     ["hi"] (by rfl) "hi" (List.mem_singleton.mpr rfl)⟩

theorem acc_snoc_ok (acc : List (Nat × List (String × PyVal))) (i : Nat)
    (d : List (String × PyVal))
    (hb : ∀ p ∈ acc, p.1 < i) (hp : acc.Pairwise (fun a b => a.1 < b.1)) :
    (∀ p ∈ acc ++ [(i, d)], p.1 < i + 1) ∧
    (acc ++ [(i, d)]).Pairwise (fun a b => a.1 < b.1) := by
  constructor
  · intro p hp'
    rcases List.mem_append.mp hp' with h | h
    · exact Nat.lt_succ_of_lt (hb p h)
    · rw [List.mem_singleton] at h; subst h; exact Nat.lt_succ_self i
  · refine List.pairwise_append.mpr ⟨hp, List.pairwise_singleton _ _, ?_⟩
    intro a ha b hb'
    rw [List.mem_singleton] at hb'
    subst hb'
    exact hb a ha

theorem scanGo_pairwise (full : List Char) (cs : List Char) :
    ∀ (i : Nat) (depth : Int) (start : Option Nat)
      (acc : List (Nat × List (String × PyVal))),
      (∀ p ∈ acc, p.1 < i) → acc.Pairwise (fun a b => a.1 < b.1) →
      (scanGo full cs i depth start acc).Pairwise (fun a b => a.1 < b.1) := by
  induction cs with
  | nil => intro i depth start acc hb hp; simpa [scanGo] using hp
  | cons c cs ih =>
    intro i depth start acc hb hp
    have hb' : ∀ p ∈ acc, p.1 < i + 1 := fun p h => Nat.lt_succ_of_lt (hb p h)
    simp only [scanGo]
    split
    · exact ih (i + 1) _ _ acc hb' hp
    · split
      · split
        · split
          · cases hpj : parseJson ⟨(full.take (i + 1)).drop _⟩ with
            | none => exact ih (i + 1) _ _ acc hb' hp
            | some v =>
              cases v with
              | vdict d =>
                by_cases hreq : requiredSignal d = true
                · simp only [hreq, if_true]
                  exact ih (i + 1) _ _ _ (acc_snoc_ok acc i d hb hp).1
                    (acc_snoc_ok acc i d hb hp).2
                · simp only [hreq, if_false]
                  exact ih (i + 1) _ _ acc hb' hp
              | vnone => exact ih (i + 1) _ _ acc hb' hp
              | vbool b => exact ih (i + 1) _ _ acc hb' hp
              | vnum q => exact ih (i + 1) _ _ acc hb' hp
              | vstr t => exact ih (i + 1) _ _ acc hb' hp
              | vlist xs => exact ih (i + 1) _ _ acc hb' hp
              | vobj xs => exact ih (i + 1) _ _ acc hb' hp
          · exact ih (i + 1) _ _ acc hb' hp
        · exact ih (i + 1) _ _ acc hb' hp
      · exact ih (i + 1) _ _ acc hb' hp

theorem scanCandidates_pairwise (text : String) :
    (scanCandidates text).Pairwise (fun a b => a.1 < b.1) :=
  scanGo_pairwise _ _ 0 0 none [] (by simp) (by simp)

theorem candInsert_append (x : Nat × List (String × PyVal))
    (acc : List (Nat × List (String × PyVal)))
    (h : ∀ y ∈ acc, y.1 < x.1) : candInsert x acc = acc ++ [x] := by
  induction acc with
  | nil => rfl
  | cons y ys ih =>
    have hy : y.1 < x.1 := h y (List.mem_cons_self _ _)
    have hle : candLe y x = true := by
      simp [candLe, hy]
    rw [candInsert]
    rw [if_neg (by simp [hle])]
    rw [ih (fun z hz => h z (List.mem_cons_of_mem _ hz))]
    rfl

theorem foldl_candInsert (l : List (Nat × List (String × PyVal))) :
    ∀ acc, (∀ a ∈ acc, ∀ b ∈ l, a.1 < b.1) →
      l.Pairwise (fun a b => a.1 < b.1) →
      l.foldl (fun acc x => candInsert x acc) acc = acc ++ l := by
  induction l with
  | nil => intro acc _ _; simp
  | cons x xs ih =>
    intro acc hcross hp
    rw [List.foldl_cons,
      candInsert_append x acc (fun y hy => hcross y hy x (List.mem_cons_self _ _)), ih]
    · simp
    · intro a ha b hb
      rcases List.mem_append.mp ha with h | h
      · exact hcross a h b (List.mem_cons_of_mem _ hb)
      · rw [List.mem_singleton] at h; subst h
        exact ((List.pairwise_cons.mp hp).1) b hb
    · exact (List.pairwise_cons.mp hp).2

theorem sortCandidates_of_pairwise (l : List (Nat × List (String × PyVal)))
    (hp : l.Pairwise (fun a b => a.1 < b.1)) : sortCandidates l = l := by
  rw [sortCandidates, foldl_candInsert l [] (by simp) hp]
  simp

theorem pairwise_lt_le_getLast (l : List (Nat × List (String × PyVal)))
    (hp : l.Pairwise (fun a b => a.1 < b.1)) :
    ∀ pr ∈ l, ∀ lst ∈ l.getLast?, pr.1 ≤ lst.1 := by
  induction l with
  | nil => simp
  | cons x xs ih =>
    intro pr hpr lst hlst
    rw [getLast?_cons_or] at hlst
    cases hxs : xs.getLast? with
    | none =>
      rw [hxs] at hlst
      simp only [Option.mem_def, Option.some.injEq] at hlst
      subst hlst
      have hnil : xs = [] := by
        cases xs with
        | nil => rfl
        | cons y ys =>
          rw [getLast?_cons_or] at hxs
          revert hxs
          cases ys.getLast? <;> simp
      subst hnil
      rw [List.mem_singleton] at hpr
      subst hpr
      exact Nat.le_refl _
    | some b =>
      rw [hxs] at hlst
      simp only [Option.mem_def, Option.some.injEq] at hlst
      subst hlst
      have hbmem : b ∈ xs := by
        obtain ⟨hne, heq⟩ :=
          List.mem_getLast?_eq_getLast (show b ∈ xs.getLast? from by rw [hxs]; rfl)
        rw [heq]
        exact List.getLast_mem hne
      rcases List.mem_cons.mp hpr with rfl | hpr'
      · exact Nat.le_of_lt ((List.pairwise_cons.mp hp).1 b hbmem)
      · exact ih (List.pairwise_cons.mp hp).2 pr hpr' b (by rw [hxs]; rfl)

/-- C2 amended: when `_extract_json_from_text` falls back to the brace scan,
the candidate whose span ends **latest** is chosen, regardless of field
count — the field-count key of the sort only breaks ties between equal end
positions, which the scan never produces. -/
theorem extract_json_latest_wins (text : String)
    (cands : List (Nat × List (String × PyVal)))
    (hne : text ≠ "") (hfence : fenceStage text = none)
    (hscan : scanCandidates text = cands) (hcne : cands ≠ []) :
    _extract_json_from_text text = (cands.getLast?).map (fun pr => pr.2) ∧
    ∀ pr ∈ cands, ∀ lst ∈ cands.getLast?, pr.1 ≤ lst.1 := by
  have hp : cands.Pairwise (fun a b => a.1 < b.1) := hscan ▸ scanCandidates_pairwise text
  constructor
  · rw [_extract_json_from_text, if_neg hne, hfence]
    simp only [hscan]
    rw [if_pos (by simpa [List.isEmpty_iff] using hcne)]
    rw [sortCandidates_of_pairwise cands hp]
  · exact pairwise_lt_le_getLast cands hp

def extract_json_cex_text : String :=
  "x\x7b\"summary\":\"a\",\"overall_status\":\"b\"\x7dy\x7b\"summary\":\"c\"\x7d"

/-- C2 counterexample: an earlier brace-balanced candidate with two fields
loses to a later candidate with a single field, contradicting
"the candidate with the most fields is chosen, ties broken by position". -/
theorem extract_json_most_fields_cex :
    scanCandidates extract_json_cex_text =
      [(36, [("summary", .vstr "a"), ("overall_status", .vstr "b")]),
       (52, [("summary", .vstr "c")])] ∧
    _extract_json_from_text extract_json_cex_text = some [("summary", .vstr "c")] ∧
    ([("summary", PyVal.vstr "a"), ("overall_status", PyVal.vstr "b")] :
      List (String × PyVal)).length = 2 ∧
    ([("summary", PyVal.vstr "c")] : List (String × PyVal)).length = 1 :=
  ⟨by rfl, by rfl, by rfl, by rfl⟩

/-- Witness for the amended C2 on the two-candidate text. -/
theorem extract_json_latest_wins_witness :
    _extract_json_from_text extract_json_cex_text =
      (([(36, [("summary", PyVal.vstr "a"), ("overall_status", PyVal.vstr "b")]),
         (52, [("summary", PyVal.vstr "c")])] :
        List (Nat × List (String × PyVal))).getLast?).map (fun pr => pr.2) :=
  (extract_json_latest_wins extract_json_cex_text _ (by decide) (by rfl) (by rfl)
    (by simp)).1

theorem backfillSummary_summary (parsed : List (String × PyVal)) (t : String)
    (ht : t ≠ "") : containsKey "summary" (backfillSummary parsed t) = true := by
  rw [backfillSummary]
  split
  · split
    · split
      · split <;> simp [containsKey_dictSet]
      · simp [containsKey_dictSet]
    · simp [containsKey_dictSet]
  · rename_i hcond
    rw [not_and_or] at hcond
    rcases hcond with h | h
    · rw [not_not] at h
      cases hg : dictGet "summary" parsed with
      | none => rw [hg] at h; simp [PyVal.truthy] at h
      | some v => simp [containsKey, hg]
    · exact absurd ht h

theorem backfillSummary_other (parsed : List (String × PyVal)) (t k : String)
    (hk : k ≠ "summary") :
    dictGet k (backfillSummary parsed t) = dictGet k parsed := by
  rw [backfillSummary]
  have hs : ∀ v, dictGet k (dictSet "summary" v parsed) = dictGet k parsed := by
    intro v
    rw [dictGet_dictSet]
    exact if_neg (fun he => hk he.symm)
  split
  · split
    · split
      · split <;> simp [hs]
      · simp [hs]
    · simp [hs]
  · rfl

theorem containsKey_congr {k : String} {a b : List (String × PyVal)}
    (h : dictGet k a = dictGet k b) : containsKey k a = containsKey k b := by
  simp [containsKey, h]

theorem ensurePerf_ok (d2 : List (String × PyVal)) (ct : String)
    (st pm : List (String × PyVal))
    (hpm : _extract_performance_metrics ct st = .ok pm) :
    ∃ r, ensurePerf d2 ct st = .ok r ∧
      (∀ k, k ≠ "performance" → dictGet k r = dictGet k d2) ∧
      (containsKey "performance" d2 = true →
        dictGet "performance" r = dictGet "performance" d2) := by
  rw [ensurePerf]
  by_cases hp : containsKey "performance" d2
  · rw [if_pos hp]
    exact ⟨d2, rfl, fun k _ => rfl, fun _ => rfl⟩
  · rw [if_neg hp, hpm]
    refine ⟨_, rfl, ?_, ?_⟩
    · intro k hk
      rw [dictGet_dictSet, if_neg (fun he => hk he.symm)]
    · intro hcp; exact absurd hcp hp

theorem ensureMU_ok (d1 : List (String × PyVal)) (ct : String)
    (st mu pm : List (String × PyVal))
    (hmu : _extract_model_usage st = .ok mu)
    (hpm : _extract_performance_metrics ct st = .ok pm) :
    ∃ r, ensureMU d1 ct st = .ok r ∧
      (∀ k, k ≠ "model_usage" → k ≠ "performance" → dictGet k r = dictGet k d1) ∧
      (containsKey "model_usage" d1 = true →
        dictGet "model_usage" r = dictGet "model_usage" d1) ∧
      (containsKey "performance" d1 = true →
        dictGet "performance" r = dictGet "performance" d1) := by
  rw [ensureMU]
  by_cases hu : containsKey "model_usage" d1
  · rw [if_pos hu]
    obtain ⟨r, hr, hother, hperf⟩ := ensurePerf_ok d1 ct st pm hpm
    exact ⟨r, hr, fun k _ hk2 => hother k hk2, fun _ => hother "model_usage" (by decide),
      hperf⟩
  · rw [if_neg hu, hmu]
    obtain ⟨r, hr, hother, hperf⟩ :=
      ensurePerf_ok (dictSet "model_usage" (.vdict mu) d1) ct st pm hpm
    refine ⟨r, hr, ?_, ?_, ?_⟩
    · intro k hk1 hk2
      rw [hother k hk2, dictGet_dictSet, if_neg (fun he => hk1 he.symm)]
    · intro hcu; exact absurd hcu hu
    · intro hcp
      rw [hperf (by rw [containsKey_dictSet, if_neg (by decide)]; exact hcp),
        dictGet_dictSet, if_neg (by decide)]

theorem ensureDefaults_ok (d : List (String × PyVal)) (t : String)
    (st mu pm : List (String × PyVal))
    (hmu : _extract_model_usage st = .ok mu)
    (hpm : _extract_performance_metrics t st = .ok pm) :
    ∃ r, ensureDefaults d t st = .ok r ∧
      (∀ k, k ≠ "metrics" → k ≠ "model_usage" → k ≠ "performance" →
        dictGet k r = dictGet k d) ∧
      containsKey "metrics" r = true ∧
      (containsKey "metrics" d = true → dictGet "metrics" r = dictGet "metrics" d) ∧
      (containsKey "model_usage" d = true →
        dictGet "model_usage" r = dictGet "model_usage" d) ∧
      (containsKey "performance" d = true →
        dictGet "performance" r = dictGet "performance" d) := by
  rw [ensureDefaults]
  by_cases hm : containsKey "metrics" d
  · rw [if_pos hm]
    obtain ⟨r, hr, hother, hcu, hcp⟩ := ensureMU_ok d t st mu pm hmu hpm
    refine ⟨r, hr, fun k hk1 hk2 hk3 => hother k hk2 hk3, ?_, ?_, hcu, hcp⟩
    · rw [containsKey_congr (hother "metrics" (by decide) (by decide))]
      exact hm
    · intro _; exact hother "metrics" (by decide) (by decide)
  · rw [if_neg hm]
    obtain ⟨r, hr, hother, hcu, hcp⟩ :=
      ensureMU_ok (dictSet "metrics" default_metrics d) t st mu pm hmu hpm
    refine ⟨r, hr, ?_, ?_, ?_, ?_, ?_⟩
    · intro k hk1 hk2 hk3
      rw [hother k hk2 hk3, dictGet_dictSet, if_neg (fun he => hk1 he.symm)]
    · rw [containsKey_congr (hother "metrics" (by decide) (by decide)),
        containsKey_dictSet, if_pos rfl]
    · intro hcm; exact absurd hcm hm
    · intro hcuu
      rw [hcu (by rw [containsKey_dictSet, if_neg (by decide)]; exact hcuu),
        dictGet_dictSet, if_neg (by decide)]
    · intro hcpp
      rw [hcp (by rw [containsKey_dictSet, if_neg (by decide)]; exact hcpp),
        dictGet_dictSet, if_neg (by decide)]

/-- C1 amended: with an empty `mergedState`, `coerce_review_output` never
raises and its result always contains `summary` and `metrics`; it contains
`overall_status` on every path **except** when the object extracted from the
text lacks that field, in which case the result lacks it too. -/
theorem coerce_empty_state_keys (t : String) :
    ∃ r, coerce_review_output t [] = .ok r ∧
      containsKey "summary" r = true ∧ containsKey "metrics" r = true ∧
      containsKey "overall_status" r =
        (match _extract_json_from_text t with
         | some o => containsKey "overall_status" o
         | none => true) := by
  have h0 : coerce_review_output t [] = coerceTextPhase t [] := rfl
  rw [h0]
  have hmu : _extract_model_usage [] =
      .ok [("agents", .vdict []), ("fallbacks_used", .vlist []),
           ("used_fallback", .vbool false)] := rfl
  have hpm : ∃ pm, _extract_performance_metrics t [] = .ok pm := ⟨_, rfl⟩
  by_cases ht : t = ""
  · subst ht
    exact ⟨_, rfl, by rfl, by rfl, by rfl⟩
  · rw [coerceTextPhase, if_pos ht]
    cases hext : _extract_json_from_text t with
    | some parsed =>
      obtain ⟨pm, hpm'⟩ := hpm
      obtain ⟨r, hr, hother, hcm, _, _, _⟩ :=
        ensureDefaults_ok (backfillSummary parsed t) t [] _ pm hmu hpm'
      refine ⟨r, hr, ?_, hcm, ?_⟩
      · rw [containsKey_congr (hother "summary" (by decide) (by decide) (by decide))]
        exact backfillSummary_summary parsed t ht
      · rw [containsKey_congr (hother "overall_status" (by decide) (by decide) (by decide)),
          containsKey_congr
            (show dictGet "overall_status" (backfillSummary parsed t) =
              dictGet "overall_status" parsed from
              backfillSummary_other parsed t "overall_status" (by decide))]
    | none =>
      exact ⟨_, rfl, by rfl, by rfl, by rfl⟩

/-- C1 counterexample: on `combinedText = '{"summary":"hi"}'` with empty
state, reconciliation succeeds (no exception) but the returned mapping lacks
`overall_status`, contradicting "always contains summary, overall_status and
metrics". -/
theorem coerce_missing_overall_status_cex :
    (coerce_review_output "\x7b\"summary\":\"hi\"\x7d" []).map (containsKey "overall_status") =
      .ok false ∧
    (coerce_review_output "\x7b\"summary\":\"hi\"\x7d" []).map (containsKey "summary") =
      .ok true ∧
    (coerce_review_output "\x7b\"summary\":\"hi\"\x7d" []).map (containsKey "metrics") =
      .ok true := ⟨by rfl, by rfl, by rfl⟩


theorem fallbackInfoStep_ok (acc : List (String × PyVal) × List String × List String)
    (x : PyVal) (hx : fallback_entry_ok x = true) :
    ∃ acc', fallbackInfoStep acc x = .ok acc' := by
  cases x with
  | vdict fd =>
    simp only [fallback_entry_ok, Bool.and_eq_true] at hx
    obtain ⟨⟨ha, hp⟩, hf⟩ := hx
    rw [fallbackInfoStep]
    cases hga : dictGet "agent" fd with
    | none =>
      cases hgp : dictGet "primary" fd with
      | none =>
        cases hgf : dictGet "fallback" fd with
        | none => exact ⟨_, rfl⟩
        | some vf =>
          rw [hgf] at hf
          cases vf <;> simp at hf
          exact ⟨_, rfl⟩
      | some vp =>
        rw [hgp] at hp
        cases vp <;> simp at hp
        cases hgf : dictGet "fallback" fd with
        | none => exact ⟨_, rfl⟩
        | some vf =>
          rw [hgf] at hf
          cases vf <;> simp at hf
          exact ⟨_, rfl⟩
    | some va =>
      rw [hga] at ha
      cases va <;> simp at ha
      cases hgp : dictGet "primary" fd with
      | none =>
        cases hgf : dictGet "fallback" fd with
        | none => exact ⟨_, rfl⟩
        | some vf =>
          rw [hgf] at hf
          cases vf <;> simp at hf
          exact ⟨_, rfl⟩
      | some vp =>
        rw [hgp] at hp
        cases vp <;> simp at hp
        cases hgf : dictGet "fallback" fd with
        | none => exact ⟨_, rfl⟩
        | some vf =>
          rw [hgf] at hf
          cases vf <;> simp at hf
          exact ⟨_, rfl⟩
  | vnone => exact ⟨acc, rfl⟩
  | vbool b => exact ⟨acc, rfl⟩
  | vnum q => exact ⟨acc, rfl⟩
  | vstr s => exact ⟨acc, rfl⟩
  | vlist l => exact ⟨acc, rfl⟩
  | vobj a => exact ⟨acc, rfl⟩

theorem fallbackInfoLoop_ok (items : List PyVal) :
    ∀ acc, items.all fallback_entry_ok = true →
      ∃ out, fallbackInfoLoop items acc = .ok out := by
  induction items with
  | nil => intro acc _; exact ⟨acc, rfl⟩
  | cons x xs ih =>
    intro acc hall
    rw [List.all_cons, Bool.and_eq_true] at hall
    obtain ⟨acc', hacc⟩ := fallbackInfoStep_ok acc x hall.1
    rw [fallbackInfoLoop, hacc]
    exact ih acc' hall.2

theorem extract_model_usage_ok (st : List (String × PyVal))
    (haux : state_aux_ok st = true) : ∃ mu, _extract_model_usage st = .ok mu := by
  rw [state_aux_ok, Bool.and_eq_true] at haux
  obtain ⟨_, hmf⟩ := haux
  cases hg : dictGet "model_fallbacks" st with
  | none =>
    have hstep : _extract_model_usage st =
        (fallbackInfoLoop [] ([], [], [])).map (modelUsageAssemble st) := by
      rw [_extract_model_usage, hg]; rfl
    rw [hstep]
    exact ⟨_, rfl⟩
  | some v =>
    rw [hg] at hmf
    cases v with
    | vlist l =>
      have hall : l.all fallback_entry_ok = true := hmf
      obtain ⟨out, hout⟩ := fallbackInfoLoop_ok l ([], [], []) hall
      have hstep : _extract_model_usage st =
          (fallbackInfoLoop l ([], [], [])).map (modelUsageAssemble st) := by
        rw [_extract_model_usage, hg]; rfl
      rw [hstep, hout]
      exact ⟨_, rfl⟩
    | vnone => exact Bool.noConfusion (show false = true from hmf)
    | vbool b => exact Bool.noConfusion (show false = true from hmf)
    | vnum q => exact Bool.noConfusion (show false = true from hmf)
    | vstr s => exact Bool.noConfusion (show false = true from hmf)
    | vdict d => exact Bool.noConfusion (show false = true from hmf)
    | vobj a => exact Bool.noConfusion (show false = true from hmf)


theorem perfPrimary_ok (l : List PyVal) (hall : l.all fallback_entry_ok = true) :
    ∃ s, perfPrimary (.vlist l) = .ok (.vstr s) := by
  cases l with
  | nil => exact ⟨_, rfl⟩
  | cons x xs =>
    rw [List.all_cons, Bool.and_eq_true] at hall
    cases x with
    | vdict fd =>
      have hx := hall.1
      simp only [fallback_entry_ok, Bool.and_eq_true] at hx
      have h1 : perfPrimary (.vlist (.vdict fd :: xs)) =
          .ok ((dictGet "primary" fd).getD (.vstr "gemini-2.5-pro")) := rfl
      cases hgp : dictGet "primary" fd with
      | none => exact ⟨_, by rw [h1, hgp]; rfl⟩
      | some vp =>
        have hp := hx.1.2
        rw [hgp] at hp
        cases vp <;> simp at hp
        exact ⟨_, by rw [h1, hgp]; rfl⟩
    | vnone => exact ⟨_, rfl⟩
    | vbool b => exact ⟨_, rfl⟩
    | vnum q => exact ⟨_, rfl⟩
    | vstr s => exact ⟨_, rfl⟩
    | vlist l2 => exact ⟨_, rfl⟩
    | vobj a => exact ⟨_, rfl⟩

theorem extract_perf_ok (ct : String) (st : List (String × PyVal))
    (haux : state_aux_ok st = true) :
    ∃ r, _extract_performance_metrics ct st = .ok r := by
  rw [state_aux_ok, Bool.and_eq_true] at haux
  obtain ⟨hpm0, hmf0⟩ := haux
  have hpmd : ∃ d, (dictGet "performance_metrics" st).getD (.vdict []) = .vdict d := by
    cases hg : dictGet "performance_metrics" st with
    | none => exact ⟨[], rfl⟩
    | some v =>
      rw [hg] at hpm0
      cases v with
      | vdict d => exact ⟨d, rfl⟩
      | vnone => exact Bool.noConfusion (show false = true from hpm0)
      | vbool b => exact Bool.noConfusion (show false = true from hpm0)
      | vnum q => exact Bool.noConfusion (show false = true from hpm0)
      | vstr s => exact Bool.noConfusion (show false = true from hpm0)
      | vlist l => exact Bool.noConfusion (show false = true from hpm0)
      | vobj a => exact Bool.noConfusion (show false = true from hpm0)
  obtain ⟨d, hd⟩ := hpmd
  have hmfl : ∃ l, (dictGet "model_fallbacks" st).getD (.vlist []) = .vlist l ∧
      l.all fallback_entry_ok = true := by
    cases hg : dictGet "model_fallbacks" st with
    | none => exact ⟨[], rfl, rfl⟩
    | some v =>
      rw [hg] at hmf0
      cases v with
      | vlist l => exact ⟨l, rfl, hmf0⟩
      | vnone => exact Bool.noConfusion (show false = true from hmf0)
      | vbool b => exact Bool.noConfusion (show false = true from hmf0)
      | vnum q => exact Bool.noConfusion (show false = true from hmf0)
      | vstr s => exact Bool.noConfusion (show false = true from hmf0)
      | vdict d2 => exact Bool.noConfusion (show false = true from hmf0)
      | vobj a => exact Bool.noConfusion (show false = true from hmf0)
  obtain ⟨l, hl, hall⟩ := hmfl
  obtain ⟨s, hs⟩ := perfPrimary_ok l hall
  have h1 : _extract_performance_metrics ct st =
      match perfPrimary ((dictGet "model_fallbacks" st).getD (.vlist [])) with
      | .error e => .error e
      | .ok primary =>
        perfAssemble ct st d ((dictGet "model_fallbacks" st).getD (.vlist [])) primary := by
    rw [_extract_performance_metrics, hd]
  rw [h1, hl, hs]
  cases l with
  | nil => exact ⟨_, rfl⟩
  | cons x xs => exact ⟨_, rfl⟩

/-- C3: when `mergedState["code_review_output"]` is a mapping `d` holding a
required field (`summary` or `overall_status`) and the auxiliary state
entries are well shaped, `coerce_review_output` returns a result built from
`d` itself for every `combinedText` (even one embedding parseable JSON):
every key of `d` outside the defaulted `metrics`/`model_usage`/`performance`
keys is preserved verbatim, and `summary` is taken from `d` unless `d`'s
summary is falsy and the text is non-empty, in which case it is backfilled
with the whole combined text. -/
theorem coerce_state_priority (t : String) (st d : List (String × PyVal))
    (hcr : dictGet "code_review_output" st = some (.vdict d))
    (hreq : containsKey "summary" d = true ∨ containsKey "overall_status" d = true)
    (haux : state_aux_ok st = true) :
    ∃ r, coerce_review_output t st = .ok r ∧
      (∀ k, k ≠ "summary" → k ≠ "metrics" → k ≠ "model_usage" → k ≠ "performance" →
        dictGet k r = dictGet k d) ∧
      dictGet "summary" r =
        (if (((dictGet "summary" d).getD .vnone).truthy) then dictGet "summary" d
         else if t = "" then dictGet "summary" d else some (.vstr t)) ∧
      (containsKey "metrics" d = true → dictGet "metrics" r = dictGet "metrics" d) ∧
      (containsKey "model_usage" d = true →
        dictGet "model_usage" r = dictGet "model_usage" d) ∧
      (containsKey "performance" d = true →
        dictGet "performance" r = dictGet "performance" d) := by
  have htr : PyVal.truthy (.vdict d) = true := by
    cases d with
    | nil =>
      cases hreq with
      | inl h => exact absurd h (by decide)
      | inr h => exact absurd h (by decide)
    | cons x xs => rfl
  have hreqb : (containsKey "summary" d || containsKey "overall_status" d) = true := by
    cases hreq with
    | inl h => rw [h, Bool.true_or]
    | inr h => rw [h, Bool.or_true]
  have hs1 : coerceStructured st = .vdict d := by
    rw [coerceStructured, hcr, Option.getD_some, htr]
    rfl
  have hstep : coerce_review_output t st = coerceDictPath t st d := by
    rw [coerce_review_output, hs1]
  have hstep2 : coerceDictPath t st d =
      ensureDefaults
        (if ¬ (((dictGet "summary" d).getD .vnone).truthy) ∧ t ≠ "" then
           dictSet "summary" (.vstr t) d
         else d) t st := by
    rw [coerceDictPath, hreqb]
    rfl
  obtain ⟨mu, hmu⟩ := extract_model_usage_ok st haux
  obtain ⟨pm, hpm⟩ := extract_perf_ok t st haux
  obtain ⟨r, hr, hother, _, hcm, hcu, hcp⟩ :=
    ensureDefaults_ok
      (if ¬ (((dictGet "summary" d).getD .vnone).truthy) ∧ t ≠ "" then
         dictSet "summary" (.vstr t) d
       else d) t st mu pm hmu hpm
  refine ⟨r, by rw [hstep, hstep2]; exact hr, ?_, ?_, ?_, ?_, ?_⟩
  · intro k hk1 hk2 hk3 hk4
    rw [hother k hk2 hk3 hk4]
    by_cases hc : ¬ (((dictGet "summary" d).getD .vnone).truthy = true) ∧ t ≠ ""
    · rw [if_pos hc, dictGet_dictSet, if_neg (fun he => hk1 he.symm)]
    · rw [if_neg hc]
  · rw [hother "summary" (by decide) (by decide) (by decide)]
    by_cases hc : ((dictGet "summary" d).getD .vnone).truthy = true
    · rw [if_pos hc, if_neg (fun h => h.1 hc)]
    · rw [if_neg hc]
      by_cases htt : t = ""
      · rw [if_pos htt, if_neg (fun h => h.2 htt)]
      · rw [if_neg htt, if_pos ⟨hc, htt⟩, dictGet_dictSet, if_pos rfl]
  · intro hm
    have hd' : dictGet "metrics"
        (if ¬ (((dictGet "summary" d).getD .vnone).truthy) ∧ t ≠ "" then
           dictSet "summary" (.vstr t) d
         else d) = dictGet "metrics" d := by
      by_cases hc : ¬ (((dictGet "summary" d).getD .vnone).truthy = true) ∧ t ≠ ""
      · rw [if_pos hc, dictGet_dictSet, if_neg (by decide)]
      · rw [if_neg hc]
    rw [hcm (by rw [containsKey_congr hd']; exact hm), hd']
  · intro hm
    have hd' : dictGet "model_usage"
        (if ¬ (((dictGet "summary" d).getD .vnone).truthy) ∧ t ≠ "" then
           dictSet "summary" (.vstr t) d
         else d) = dictGet "model_usage" d := by
      by_cases hc : ¬ (((dictGet "summary" d).getD .vnone).truthy = true) ∧ t ≠ ""
      · rw [if_pos hc, dictGet_dictSet, if_neg (by decide)]
      · rw [if_neg hc]
    rw [hcu (by rw [containsKey_congr hd']; exact hm), hd']
  · intro hm
    have hd' : dictGet "performance"
        (if ¬ (((dictGet "summary" d).getD .vnone).truthy) ∧ t ≠ "" then
           dictSet "summary" (.vstr t) d
         else d) = dictGet "performance" d := by
      by_cases hc : ¬ (((dictGet "summary" d).getD .vnone).truthy = true) ∧ t ≠ ""
      · rw [if_pos hc, dictGet_dictSet, if_neg (by decide)]
      · rw [if_neg hc]
    rw [hcp (by rw [containsKey_congr hd']; exact hm), hd']

/-- C3 counterexample: with `code_review_output` a mapping holding a required
field but a non-mapping `performance_metrics` entry alongside it in the
state, `coerce_review_output` raises (Python: `AttributeError` from calling
`.get` on the non-dict) instead of returning the state-provided mapping. -/
theorem coerce_state_crash_cex :
    coerce_review_output ""
      [("code_review_output", PyVal.vdict [("overall_status", PyVal.vstr "APPROVED")]),
       ("performance_metrics", PyVal.vnum ⟨5, 0⟩)] =
    .error ⟨"AttributeError", "object has no attribute get"⟩ := rfl

/-- C3 witness: `coerce_state_priority` at a concrete state whose
`code_review_output` mapping says LGTM/APPROVED and a combined text that
itself embeds a parseable JSON object saying REQUEST_CHANGES: the
state-provided mapping wins. -/
theorem coerce_state_priority_witness :
    ∃ r, coerce_review_output
        "\x7b\"summary\":\"OVERRIDE\",\"overall_status\":\"REQUEST_CHANGES\"\x7d"
        [("code_review_output",
          PyVal.vdict [("summary", PyVal.vstr "LGTM"),
                       ("overall_status", PyVal.vstr "APPROVED")])] = .ok r ∧
      dictGet "overall_status" r = some (.vstr "APPROVED") ∧
      dictGet "summary" r = some (.vstr "LGTM") := by
  obtain ⟨r, hr, hother, hsum, _⟩ :=
    coerce_state_priority
      "\x7b\"summary\":\"OVERRIDE\",\"overall_status\":\"REQUEST_CHANGES\"\x7d"
      [("code_review_output",
        PyVal.vdict [("summary", PyVal.vstr "LGTM"),
                     ("overall_status", PyVal.vstr "APPROVED")])]
      [("summary", PyVal.vstr "LGTM"), ("overall_status", PyVal.vstr "APPROVED")]
      rfl (Or.inl rfl) rfl
  refine ⟨r, hr, ?_, ?_⟩
  · rw [hother "overall_status" (by decide) (by decide) (by decide) (by decide)]
    rfl
  · rw [hsum]
    rfl
